import Mathlib

/-!
# go-marathon: the application resource model and its client operations

A shallow embedding of `application.go`, `health.go` and `docker.go`.

Conventions of the embedding

* A Go slice or map field that may be `nil` is an `Option`: `none` is `nil`,
  `some []` is an allocated, empty slice.  A nilable pointer field (`*T`) is an
  `Option T`.  The elements of `Tasks` (`[]*Task`), which `ApplicationOK`
  dereferences, are `Option Task`, `none` being a nil element; the elements of
  the other slices of pointers, which no function of these files dereferences,
  are given by the objects they designate.
* A run-time panic (a nil pointer dereference) of an operation is the result
  `none` of its embedding, which then returns an `Option`.
* Go `int` is `Int`; no arithmetic is performed on it in these files.
* A Go result `(bool, error)` is a pair `Bool × Option Error` (`none` is the
  `nil` error).  A Go result `(*T, error)` or `([]T, error)` is an
  `Except Error T`: `.error e` is `(nil, e)` and `.ok v` is `(v, nil)`, the only
  two shapes these files ever return.
* The API client is stateful: every operation takes the client and returns the
  client it leaves behind, whose `log` records the requests issued so far.
* `client.Debug` only writes to a logger: it is the identity on the client
  (`Client.Debug`).  It is written out where its arguments matter, in
  `RestartApplication` (the one use of the parameter `force`) and in
  `SetApplicationVersion` (an argument reads through the pointer `version`), and
  left out of the other operations, whose log lines take strings and integers.
* A builder with a pointer receiver works on a `Store`: it takes the store and the
  address held by the receiver, and returns the address it returns together
  with the store it leaves behind; it returns `none` when the receiver
  designates no object (the call then panics).
* A method with a value receiver gets a copy of the receiver: it is a function
  from the receiver value to the returned value, and no store is involved.
-/

set_option autoImplicit false

namespace Marathon

/-! ## Data model -/

/-- Bit pattern of a Go `float32`; the zero value is the pattern `0`. -/
structure Float32 where
  bits : Nat := 0
deriving DecidableEq, Repr, Inhabited

/-- Error values: the package's sentinels and any other failure reported by the
API client.  `ErrApplicationExists` is declared in `application.go`; the other
two sentinels are used there and declared elsewhere in the package. -/
inductive Error where
  | ErrApplicationExists
  | ErrDoesNotExist
  | ErrInvalidArgument
  | other (msg : String)
deriving DecidableEq, Repr, Inhabited

/-- Command health check type (`health.go`). -/
structure Command where
  Value : String := ""
deriving DecidableEq, Repr, Inhabited

/-- Definition of an application health check (`health.go`). -/
structure HealthCheck where
  Command : Option Command := none
  PortIndex : Option Int := none
  Port : Option Int := none
  Path : Option String := none
  MaxConsecutiveFailures : Option Int := none
  Protocol : String := ""
  GracePeriodSeconds : Int := 0
  IntervalSeconds : Int := 0
  TimeoutSeconds : Int := 0
  IgnoreHTTP1xx : Option Bool := none
deriving DecidableEq, Repr, Inhabited

/-- Health check result reported for a task (`health.go`). -/
structure HealthCheckResult where
  Alive : Bool := false
  ConsecutiveFailures : Int := 0
  FirstSuccess : String := ""
  LastFailure : String := ""
  LastFailureCause : String := ""
  LastSuccess : String := ""
  TaskID : String := ""
deriving DecidableEq, Repr, Inhabited

/-- Modelled from the spec: the `Task` type, declared in another file of the package.
A task carries an identifier and an optional ordered sequence of
`HealthCheckResult` (`none` when the task has no result list at all). -/
structure Task where
  ID : String := ""
  HealthCheckResult : Option (List HealthCheckResult) := none
deriving DecidableEq, Repr, Inhabited

/-- Volume mount of a container (`docker.go`). -/
structure Volume where
  ContainerPath : String := ""
  HostPath : String := ""
  Mode : String := ""
deriving DecidableEq, Repr, Inhabited

/-- Port mapping of a Docker descriptor (`docker.go`). -/
structure PortMapping where
  ContainerPort : Int := 0
  HostPort : Int := 0
  ServicePort : Int := 0
  Protocol : String := ""
deriving DecidableEq, Repr, Inhabited

/-- Docker descriptor (`docker.go`). -/
structure Docker where
  Image : String := ""
  Network : String := ""
  PortMappings : Option (List PortMapping) := none
deriving DecidableEq, Repr, Inhabited

/-- Container sub-document (`docker.go`); `Type_` is the Go field `Type`. -/
structure Container where
  Type_ : String := ""
  Docker : Option Docker := none
  Volumes : Option (List Volume) := none
deriving DecidableEq, Repr, Inhabited

/-- The application resource (`application.go`, lines 36-59).  Every field
defaults to its Go zero value, so `{}` is `new(Application)`. -/
structure Application where
  ID : String := ""
  Cmd : String := ""
  Args : Option (List String) := none
  Constraints : Option (List (Option (List String))) := none
  Container : Option Container := none
  CPUs : Float32 := {}
  Disk : Float32 := {}
  Env : Option (List (String × String)) := none
  Executor : String := ""
  HealthChecks : Option (List HealthCheck) := none
  Instances : Int := 0
  Mem : Float32 := {}
  Tasks : Option (List (Option Task)) := none
  Ports : Option (List Int) := none
  RequirePorts : Bool := false
  BackoffFactor : Float32 := {}
  Dependencies : Option (List String) := none
  TasksRunning : Int := 0
  TasksStaged : Int := 0
  User : String := ""
  Uris : Option (List String) := none
  Version : String := ""
deriving DecidableEq, Repr, Inhabited

/-- Document of the application list (`application.go`, lines 28-30). -/
structure Applications where
  Apps : Option (List Application) := none
deriving DecidableEq, Repr, Inhabited

/-- Document wrapping one application (`application.go`, lines 32-34). -/
structure ApplicationWrap where
  Application : Application := {}
deriving DecidableEq, Repr, Inhabited

/-- Document of the version list (`application.go`, lines 111-113). -/
structure ApplicationVersions where
  Versions : Option (List String) := none
deriving DecidableEq, Repr, Inhabited

/-- Version token document (`application.go`, lines 115-117). -/
structure ApplicationVersion where
  Version : String := ""
deriving DecidableEq, Repr, Inhabited

/-- Modelled from the spec: the `DeploymentID` type, declared in another file of the
package: an opaque token returned by mutating operations. -/
structure DeploymentID where
  Token : String := ""
deriving DecidableEq, Repr, Inhabited

/-! ## The API client collaborator -/

/-- HTTP verb of a request. -/
inductive Method where
  | GET
  | POST
  | PUT
  | DELETE
deriving DecidableEq, Repr, Inhabited

/-- Second argument of an `Api*` call: the query string of a GET or DELETE, or
the document handed over as the body of a PUT or POST (for `version`, the
document a `*ApplicationVersion` designates, `none` for the nil pointer). -/
inductive Payload where
  | query (q : String)
  | application (a : Application)
  | version (v : Option ApplicationVersion)
deriving DecidableEq, Repr, Inhabited

/-- One call of the API client. -/
structure Request where
  method : Method
  uri : String
  payload : Payload
deriving DecidableEq, Repr, Inhabited

/-- Third argument of an `Api*` call: the kind of destination the response is
decoded into (`nothing` is a `nil` destination). -/
inductive Dest where
  | applications
  | applicationWrap
  | applicationVersions
  | deploymentID
  | nothing
deriving DecidableEq, Repr, Inhabited

/-- Type of the document a destination holds once the call has succeeded. -/
def Dest.Doc : Dest → Type
  | .applications => Applications
  | .applicationWrap => ApplicationWrap
  | .applicationVersions => ApplicationVersions
  | .deploymentID => DeploymentID
  | .nothing => Unit

/-- Modelled from the spec: the `Client` type with its `ApiGet`/`ApiPut`
capability and the constant `MARATHON_API_APPS`, declared in another file of the
package.  The remote system is an arbitrary function `respond`: given the
requests issued before, the current request and the destination kind, it either
fails with an error or yields the decoded document.  `log` holds the requests
issued so far, oldest first; `MARATHON_API_APPS` is the fixed base path of the
applications collection. -/
structure Client where
  MARATHON_API_APPS : String
  respond : List Request → Request → (d : Dest) → Except Error d.Doc
  log : List Request

/-- Issue one request: it is answered by the remote system and recorded. -/
def Client.call (client : Client) (r : Request) (d : Dest) : Except Error d.Doc × Client :=
  (client.respond client.log r d, { client with log := client.log ++ [r] })

/-- Modelled from the spec: `ApiGet(uri, query, result)`, a GET against a resource
path with a query, decoding the response into the destination. -/
def Client.ApiGet (client : Client) (uri query : String) (d : Dest) :
    Except Error d.Doc × Client :=
  client.call ⟨.GET, uri, .query query⟩ d

/-- Modelled from the spec: `ApiPut(uri, body, result)`, a PUT against a resource
path with a body, decoding the response into the destination. -/
def Client.ApiPut (client : Client) (uri : String) (body : Payload) (d : Dest) :
    Except Error d.Doc × Client :=
  client.call ⟨.PUT, uri, body⟩ d

/-- Modelled from the spec: the helper `Contains`, declared in another file of the
package: an exact-membership test by linear scan; a `nil` slice has no member. -/
def Contains (elements : Option (List String)) (value : String) : Bool :=
  match elements with
  | none => false
  | some es => es.any (fun element => element == value)

/-! ## Operations of `application.go` -/

/-- Method `Applications` (lines 120-127): retrieve all the applications. -/
def Client.Applications (client : Client) : Except Error Marathon.Applications × Client :=
  match client.ApiGet client.MARATHON_API_APPS "" .applications with
  | (.error err, client) => (.error err, client)
  | (.ok applications, client) => (.ok applications, client)

/-- Method `ListApplications` (lines 130-140): the application names, in list order. -/
def Client.ListApplications (client : Client) : Except Error (List String) × Client :=
  match client.Applications with
  | (.error err, client) => (.error err, client)
  | (.ok applications, client) =>
    (.ok ((applications.Apps.getD []).foldl (fun list application => list ++ [application.ID]) []),
      client)

/-- Method `ApplicationVersions` (lines 160-167): the versions deployed for `name`. -/
def Client.ApplicationVersions (client : Client) (name : String) :
    Except Error Marathon.ApplicationVersions × Client :=
  let uri := client.MARATHON_API_APPS ++ name ++ "/versions"
  match client.ApiGet uri "" .applicationVersions with
  | (.error err, client) => (.error err, client)
  | (.ok versions, client) => (.ok versions, client)

/-- Method `HasApplicationVersion` (lines 146-155). -/
def Client.HasApplicationVersion (client : Client) (name version : String) :
    (Bool × Option Error) × Client :=
  match client.ApplicationVersions name with
  | (.error err, client) => ((false, some err), client)
  | (.ok versions, client) =>
    if Contains versions.Versions version then ((true, none), client)
    else ((false, none), client)

/-- Method `Application` (lines 187-194): retrieve the configuration of `name`. -/
def Client.Application (client : Client) (name : String) :
    Except Error Marathon.Application × Client :=
  match client.ApiGet (client.MARATHON_API_APPS ++ name) "" .applicationWrap with
  | (.error err, client) => (.error err, client)
  | (.ok application, client) => (.ok application.Application, client)

/-- The loop of `HasApplication` (lines 254-259): `true` when it returns early
on an id equal to `name`, `false` when it runs to its end. -/
def HasApplication.loop (name : String) : List String → Bool
  | [] => false
  | id :: rest => if name == id then true else HasApplication.loop name rest

/-- Method `HasApplication` (lines 246-263). -/
def Client.HasApplication (client : Client) (name : String) : (Bool × Option Error) × Client :=
  if name == "" then ((false, some .ErrInvalidArgument), client)
  else
    match client.ListApplications with
    | (.error err, client) => ((false, some err), client)
    | (.ok applications, client) =>
      if HasApplication.loop name applications then ((true, none), client)
      else ((false, none), client)

/-- The inner loop of `ApplicationOK` (lines 223-227) over the results of one
task: `some r` when the loop returns `r` early, `none` when it runs to its end. -/
def ApplicationOK.checkLoop : List HealthCheckResult → Option (Bool × Option Error)
  | [] => none
  | check :: rest =>
    if !check.Alive then some (false, none) else ApplicationOK.checkLoop rest

/-- The outer loop of `ApplicationOK` (lines 221-230) over the elements of
`Tasks`, followed by the return of line 231: `some r` when the function returns
`r`, from inside the loop or after it, and `none` when it panics, which it does
on reading `task.HealthCheckResult` (line 222) through a nil `task`. -/
def ApplicationOK.taskLoop : List (Option Task) → Option (Bool × Option Error)
  | [] => some (true, none)
  | none :: _ => none
  | some task :: rest =>
    match task.HealthCheckResult with
    | some results =>
      match ApplicationOK.checkLoop results with
      | some r => some r
      | none => ApplicationOK.taskLoop rest
    | none => ApplicationOK.taskLoop rest

/-- The branch of `ApplicationOK` that runs once the application has been fetched
(lines 211-231): `some r` when it returns `r`, `none` when it panics. -/
def ApplicationOK.verdict (application : Application) : Option (Bool × Option Error) :=
  if application.HealthChecks == none || (application.HealthChecks.getD []).length ≤ 0 then
    some (true, none)
  else if application.Tasks == none || (application.Tasks.getD []).length ≤ 0 then
    some (true, none)
  else
    ApplicationOK.taskLoop (application.Tasks.getD [])

/-- Method `ApplicationOK` (lines 200-233): `some` of the result and of the client
left behind, or `none` when the call panics. -/
def Client.ApplicationOK (client : Client) (name : String) :
    Option ((Bool × Option Error) × Client) :=
  match client.HasApplication name with
  | ((_, some err), client) => some ((false, some err), client)
  | ((found, none), client) =>
    if !found then some ((false, some .ErrDoesNotExist), client)
    else
      match client.Application name with
      | (.error err, client) => some ((false, some err), client)
      | (.ok application, client) =>
        match ApplicationOK.verdict application with
        | none => none
        | some r => some (r, client)

/-- Method `ScaleApplicationInstances` (lines 290-297). -/
def Client.ScaleApplicationInstances (client : Client) (name : String) (instances : Int) :
    Option Error × Client :=
  let changes : Marathon.Application := {}
  let changes := { changes with ID := name }
  let changes := { changes with Instances := instances }
  let uri := client.MARATHON_API_APPS ++ name
  match client.ApiPut uri (.application changes) .nothing with
  | (.error err, client) => (some err, client)
  | (.ok _, client) => (none, client)

/-- Modelled from the spec: `client.Debug`, the debug instrumentation declared in
another file of the package: it formats its arguments for a logger and has no
effect on the client or on the requests. -/
def Client.Debug (client : Client) (_format : String) (_arguments : List String) : Client :=
  client

/-- The text of an error, as a log line shows it; the names of the two sentinels
declared in another file of the package stand for their texts. -/
def Error.text : Error → String
  | .ErrApplicationExists => "The application already exists in marathon, you must update"
  | .ErrDoesNotExist => "ErrDoesNotExist"
  | .ErrInvalidArgument => "ErrInvalidArgument"
  | .other msg => msg

/-- Method `SetApplicationVersion` (lines 173-182).  `version` is the pointer
argument: `some` of the document it designates, or `none` for nil.  The result
is `none` when the call panics, which it does in the error branch, where the
argument `version.Version` of `client.Debug` (line 178) reads through a nil
`version`. -/
def Client.SetApplicationVersion (client : Client) (name : String)
    (version : Option Marathon.ApplicationVersion) :
    Option (Except Error DeploymentID × Client) :=
  let client := client.Debug "Changing the application: %s to version: %s"
    [name, (version.map (fun v => v.Version)).getD "<nil>"]
  let uri := client.MARATHON_API_APPS ++ name
  match client.ApiPut uri (.version version) .deploymentID with
  | (.error err, client) =>
    match version with
    | none => none
    | some document =>
      let client := client.Debug "Failed to change the application to version: %s, error: %s"
        [document.Version, err.text]
      some (.error err, client)
  | (.ok deploymentId, client) => some (.ok deploymentId, client)

/-- Method `RestartApplication` (lines 277-284).  The parameter `force` occurs in
the body only as an argument of `client.Debug`. -/
def Client.RestartApplication (client : Client) (name : String) (force : Bool) :
    Except Error DeploymentID × Client :=
  let client := client.Debug "Restarting the application: %s, force: %s" [name, toString force]
  match client.ApiGet (client.MARATHON_API_APPS ++ name ++ "/restart") "" .deploymentID with
  | (.error err, client) => (.error err, client)
  | (.ok deployment, client) => (.ok deployment, client)

/-! ## Objects and pointers -/

/-- Objects of one type, by address.  An address that holds no object, as the
nil pointer does, reads as `none`. -/
structure Store (α : Type) where
  cell : Nat → Option α

/-- The object at the address `p`, if any. -/
def Store.read {α : Type} (store : Store α) (p : Nat) : Option α :=
  store.cell p

/-- Assignment through the pointer `p`: the object at `p` becomes `v`, every
other address keeps its object. -/
def Store.write {α : Type} (store : Store α) (p : Nat) (v : α) : Store α :=
  ⟨fun q => if q = p then some v else store.cell q⟩

/-- The store holding the single object `v`, at the address `p`. -/
def Store.single {α : Type} (p : Nat) (v : α) : Store α :=
  ⟨fun q => if q = p then some v else none⟩

/-- Assignment `m[key] = value` on a Go map, held as a list of entries: the
entries of `key` are dropped and the new entry is added. -/
def mapAssign (m : List (String × String)) (key value : String) : List (String × String) :=
  m.filter (fun entry => entry.1 != key) ++ [(key, value)]

/-- Reading `m[key]` on a Go map held as a list of entries. -/
def mapLookup (m : List (String × String)) (key : String) : Option String :=
  m.lookup key

/-! ## Builders of `application.go` -/

/-- Method `Name` (lines 61-64). -/
def Application.Name (store : Store Application) (application : Nat) (id : String) :
    Option (Nat × Store Application) :=
  match store.read application with
  | none => none
  | some object =>
    let store := store.write application { object with ID := id }
    some (application, store)

/-- Method `CPU` (lines 66-69). -/
def Application.CPU (store : Store Application) (application : Nat) (cpu : Float32) :
    Option (Nat × Store Application) :=
  match store.read application with
  | none => none
  | some object =>
    let store := store.write application { object with CPUs := cpu }
    some (application, store)

/-- Method `Storage` (lines 71-74). -/
def Application.Storage (store : Store Application) (application : Nat) (disk : Float32) :
    Option (Nat × Store Application) :=
  match store.read application with
  | none => none
  | some object =>
    let store := store.write application { object with Disk := disk }
    some (application, store)

/-- Method `DependsOn` (lines 76-83). -/
def Application.DependsOn (store : Store Application) (application : Nat) (name : String) :
    Option (Nat × Store Application) :=
  match store.read application with
  | none => none
  | some object =>
    let object :=
      if object.Dependencies == none then { object with Dependencies := some [] } else object
    let store := store.write application
      { object with Dependencies := some (object.Dependencies.getD [] ++ [name]) }
    some (application, store)

/-- Method `Memory` (lines 85-88). -/
def Application.Memory (store : Store Application) (application : Nat) (memory : Float32) :
    Option (Nat × Store Application) :=
  match store.read application with
  | none => none
  | some object =>
    let store := store.write application { object with Mem := memory }
    some (application, store)

/-- Method `Count` (lines 90-93). -/
def Application.Count (store : Store Application) (application : Nat) (count : Int) :
    Option (Nat × Store Application) :=
  match store.read application with
  | none => none
  | some object =>
    let store := store.write application { object with Instances := count }
    some (application, store)

/-- Method `Arg` (lines 95-101). -/
def Application.Arg (store : Store Application) (application : Nat) (argument : String) :
    Option (Nat × Store Application) :=
  match store.read application with
  | none => none
  | some object =>
    let object := if object.Args == none then { object with Args := some [] } else object
    let store := store.write application
      { object with Args := some (object.Args.getD [] ++ [argument]) }
    some (application, store)

/-- Method `AddEnv` (lines 103-109). -/
def Application.AddEnv (store : Store Application) (application : Nat) (name value : String) :
    Option (Nat × Store Application) :=
  match store.read application with
  | none => none
  | some object =>
    let object := if object.Env == none then { object with Env := some [] } else object
    let store := store.write application
      { object with Env := some (mapAssign (object.Env.getD []) name value) }
    some (application, store)

/-! ## `health.go` -/

/-- Method `SetCommand` (lines 34-37). -/
def HealthCheck.SetCommand (h : HealthCheck) (c : Marathon.Command) : HealthCheck :=
  let h := { h with Command := some c }
  h

/-- Method `SetPortIndex` (lines 40-43). -/
def HealthCheck.SetPortIndex (h : HealthCheck) (i : Int) : HealthCheck :=
  let h := { h with PortIndex := some i }
  h

/-- Method `SetPort` (lines 46-49). -/
def HealthCheck.SetPort (h : HealthCheck) (i : Int) : HealthCheck :=
  let h := { h with Port := some i }
  h

/-- Method `SetPath` (lines 52-55). -/
def HealthCheck.SetPath (h : HealthCheck) (p : String) : HealthCheck :=
  let h := { h with Path := some p }
  h

/-- Method `SetMaxConsecutiveFailures` (lines 58-61). -/
def HealthCheck.SetMaxConsecutiveFailures (h : HealthCheck) (i : Int) : HealthCheck :=
  let h := { h with MaxConsecutiveFailures := some i }
  h

/-- Method `SetIgnoreHTTP1xx` (lines 64-67). -/
def HealthCheck.SetIgnoreHTTP1xx (h : HealthCheck) (ignore : Bool) : HealthCheck :=
  let h := { h with IgnoreHTTP1xx := some ignore }
  h

/-- Function `NewDefaultHealthCheck` (lines 70-84): the health check the returned
pointer designates. -/
def NewDefaultHealthCheck : HealthCheck :=
  let portIndex : Int := 0
  let path := ""
  let maxConsecutiveFailures : Int := 3
  { Protocol := "HTTP",
    Path := some path,
    PortIndex := some portIndex,
    MaxConsecutiveFailures := some maxConsecutiveFailures,
    GracePeriodSeconds := 30,
    IntervalSeconds := 10,
    TimeoutSeconds := 5 }

/-! ## `docker.go` -/

/-- Method `Volume` of `Container` (lines 25-35). -/
def Container.Volume (store : Store Marathon.Container) (container : Nat)
    (host_path container_path mode : String) : Option (Nat × Store Marathon.Container) :=
  match store.read container with
  | none => none
  | some object =>
    let object := if object.Volumes == none then { object with Volumes := some [] } else object
    let store := store.write container
      { object with
        Volumes := some (object.Volumes.getD [] ++
          [{ ContainerPath := container_path, HostPath := host_path, Mode := mode }]) }
    some (container, store)

/-- Function `NewDockerContainer` (lines 37-47): the container the returned
pointer designates. -/
def NewDockerContainer : Marathon.Container :=
  let container : Marathon.Container := {}
  let container := { container with Type_ := "DOCKER" }
  let container :=
    { container with Docker := some { Image := "", Network := "BRIDGE", PortMappings := some [] } }
  let container := { container with Volumes := some [] }
  container

/-- Method `Container` of `Docker` (lines 61-64). -/
def Docker.Container (store : Store Marathon.Docker) (docker : Nat) (image : String) :
    Option (Nat × Store Marathon.Docker) :=
  match store.read docker with
  | none => none
  | some object =>
    let store := store.write docker { object with Image := image }
    some (docker, store)

/-- Method `Bridged` (lines 66-69). -/
def Docker.Bridged (store : Store Marathon.Docker) (docker : Nat) :
    Option (Nat × Store Marathon.Docker) :=
  match store.read docker with
  | none => none
  | some object =>
    let store := store.write docker { object with Network := "BRIDGE" }
    some (docker, store)

/-- Method `ExposePort` (lines 81-91). -/
def Docker.ExposePort (store : Store Marathon.Docker) (docker : Nat)
    (container_port host_port service_port : Int) (protocol : String) :
    Option (Nat × Store Marathon.Docker) :=
  match store.read docker with
  | none => none
  | some object =>
    let object :=
      if object.PortMappings == none then { object with PortMappings := some [] } else object
    let store := store.write docker
      { object with
        PortMappings := some (object.PortMappings.getD [] ++
          [{ ContainerPort := container_port, HostPort := host_port,
             ServicePort := service_port, Protocol := protocol }]) }
    some (docker, store)

/-- Method `Expose` (lines 71-74): the result of `ExposePort` is dropped and the
receiver is returned. -/
def Docker.Expose (store : Store Marathon.Docker) (docker : Nat) (port : Int) :
    Option (Nat × Store Marathon.Docker) :=
  match Docker.ExposePort store docker port 0 0 "tcp" with
  | none => none
  | some (_, store) => some (docker, store)

/-- Method `ExposeUDP` (lines 76-79): the result of `ExposePort` is dropped and
the receiver is returned. -/
def Docker.ExposeUDP (store : Store Marathon.Docker) (docker : Nat) (port : Int) :
    Option (Nat × Store Marathon.Docker) :=
  match Docker.ExposePort store docker port 0 0 "udp" with
  | none => none
  | some (_, store) => some (docker, store)

/-! ## JSON keys of an `Application`

The keys under which Go's `encoding/json` writes the fields of a struct are
fixed by the struct tags: `reflect.StructTag.Get` extracts the `json` entry of
the tag, `encoding/json` splits it into a name and options, and a field whose
options hold `omitempty` is left out when its value is empty.  The functions
below follow these library functions on the characters of the tags of
`Application` (lines 36-59). -/

/-- The double quote character. -/
def quoteChar : Char := Char.ofNat 34

/-- The backslash character. -/
def backslashChar : Char := Char.ofNat 92

/-- Loop condition of the scan to the colon in `StructTag.Lookup`: neither a
space, a control character, a colon, a quote nor DEL. -/
def StructTag.nameChar (c : Char) : Bool :=
  c > ' ' && c != ':' && c != quoteChar && c != Char.ofNat 127

/-- Scan of the quoted value in `StructTag.Lookup`, from the character after the
opening quote: the characters up to the closing quote and those after it, or
`none` when the tag ends before a closing quote.  A backslash takes the next
character with it. -/
def StructTag.scanQuoted : List Char → Option (List Char × List Char)
  | [] => none
  | [c] => if c == quoteChar then some ([], []) else none
  | c :: d :: rest =>
    if c == quoteChar then some ([], d :: rest)
    else if c == backslashChar then
      (StructTag.scanQuoted rest).map (fun r => (c :: d :: r.1, r.2))
    else (StructTag.scanQuoted (d :: rest)).map (fun r => (c :: r.1, r.2))

/-- Decoding of a quoted value (`strconv.Unquote`) for values without escape
sequence, the only ones in these files: the value itself.  A value with a
backslash or a line break is not decoded. -/
def StructTag.unquote (value : List Char) : Option String :=
  if value.any (fun c => c == backslashChar || c == Char.ofNat 10) then none
  else some (String.mk value)

/-- The loop of `reflect.StructTag.Lookup`, one turn per entry of the tag; `fuel`
bounds the number of turns. -/
def StructTag.lookupLoop (key : String) : Nat → List Char → Option String
  | 0, _ => none
  | fuel + 1, tag =>
    let tag := tag.dropWhile (fun c => c == ' ')
    if tag.isEmpty then none
    else
      let name := tag.takeWhile StructTag.nameChar
      match tag.dropWhile StructTag.nameChar with
      | colon :: quote :: value =>
        if name.isEmpty || colon != ':' || quote != quoteChar then none
        else
          match StructTag.scanQuoted value with
          | none => none
          | some (value, tag) =>
            if key == String.mk name then StructTag.unquote value
            else StructTag.lookupLoop key fuel tag
      | _ => none

/-- Go `reflect.StructTag.Get`: the value of the entry `key` of the tag, or the
empty string when the tag has no well-formed entry for it. -/
def StructTag.Get (tag key : String) : String :=
  (StructTag.lookupLoop key (tag.data.length + 1) tag.data).getD ""

/-- The pieces of a list of characters between its commas. -/
def splitComma : List Char → List (List Char)
  | [] => [[]]
  | c :: rest =>
    if c == ',' then [] :: splitComma rest
    else
      match splitComma rest with
      | [] => [[c]]
      | piece :: pieces => (c :: piece) :: pieces

/-- Go `tagOptions.Contains` of `encoding/json`: the option is one of the pieces
of the option string between commas. -/
def tagOptionsContains (options : List Char) (optionName : String) : Bool :=
  if options.isEmpty then false
  else (splitComma options).any (fun piece => String.mk piece == optionName)

/-- Go `isValidTag` of `encoding/json`, for ASCII names: not empty, and made of
letters, digits and the listed punctuation. -/
def isValidTag (name : List Char) : Bool :=
  !name.isEmpty &&
    name.all (fun c =>
      "!#$%&()*+-./:;<=>?@[]^_\x7b|\x7d~ ".data.contains c || c.isAlpha || c.isDigit)

/-- What `encoding/json` makes of a struct field with the Go name `goName` and
the tag `tag`: `none` when the field is never written (tag `-`), else the key it
is written under and whether it is left out when empty. -/
def jsonField (goName tag : String) : Option (String × Bool) :=
  let tag := StructTag.Get tag "json"
  if tag == "-" then none
  else
    let name := tag.data.takeWhile (fun c => c != ',')
    let options := (tag.data.dropWhile (fun c => c != ',')).drop 1
    let name := if isValidTag name then name else []
    let name := if name.isEmpty then goName else String.mk name
    some (name, tagOptionsContains options "omitempty")

/-- Go `isEmptyValue` on a `float32`: the value is zero (of either sign). -/
def Float32.isEmptyValue (f : Float32) : Bool :=
  f.bits % 2 ^ 31 == 0

/-- The fields of `Application` (lines 37-58), in order: Go name, struct tag as
written, and whether the value of the field is empty for `encoding/json`
(`isEmptyValue`: an empty string, a slice or map of length 0, a nil pointer,
zero, false). -/
def Application.jsonFields (a : Application) : List (String × String × Bool) :=
  [ ("ID", "json:\"id\",omitempty", a.ID == ""),
    ("Cmd", "json:\"cmd,omitempty\"", a.Cmd == ""),
    ("Args", "json:\"args,omitempty\"", (a.Args.getD []).isEmpty),
    ("Constraints", "json:\"constraints,omitempty\"", (a.Constraints.getD []).isEmpty),
    ("Container", "json:\"container,omitempty\"", a.Container.isNone),
    ("CPUs", "json:\"cpus,omitempty\"", a.CPUs.isEmptyValue),
    ("Disk", "json:\"disk,omitempty\"", a.Disk.isEmptyValue),
    ("Env", "json:\"env,omitempty\"", (a.Env.getD []).isEmpty),
    ("Executor", "json:\"executor,omitempty\"", a.Executor == ""),
    ("HealthChecks", "json:\"healthChecks,omitempty\"", (a.HealthChecks.getD []).isEmpty),
    ("Instances", "json:\"instances,omitemptys\"", a.Instances == 0),
    ("Mem", "json:\"mem,omitempty\"", a.Mem.isEmptyValue),
    ("Tasks", "json:\"tasks,omitempty\"", (a.Tasks.getD []).isEmpty),
    ("Ports", "json:\"ports,omitempty\"", (a.Ports.getD []).isEmpty),
    ("RequirePorts", "json:\"requirePorts,omitempty\"", !a.RequirePorts),
    ("BackoffFactor", "json:\"backoffFactor,omitempty\"", a.BackoffFactor.isEmptyValue),
    ("Dependencies", "json:\"dependencies,omitempty", (a.Dependencies.getD []).isEmpty),
    ("TasksRunning", "json:\"tasksRunning,omitempty\"", a.TasksRunning == 0),
    ("TasksStaged", "json:\"tasksStaged,omitempty\"", a.TasksStaged == 0),
    ("User", "json:\"user,omitempty\"", a.User == ""),
    ("Uris", "json:\"uris,omitempty\"", (a.Uris.getD []).isEmpty),
    ("Version", "json:\"version,omitempty\"", a.Version == "") ]

/-- The keys of the JSON object `encoding/json` writes for an `Application`, in
order: a field is left out when its tag is `-`, or when its options hold
`omitempty` and its value is empty. -/
def Application.jsonKeys (a : Application) : List String :=
  a.jsonFields.filterMap (fun field =>
    match jsonField field.1 field.2.1 with
    | none => none
    | some (name, omitEmpty) => if omitEmpty && field.2.2 then none else some name)

/-! ## Vocabulary of the statements -/

/-- The request by which the application list is fetched. -/
def Client.listRequest (client : Client) : Request :=
  ⟨.GET, client.MARATHON_API_APPS, .query ""⟩

/-- The request by which the document of the application `name` is fetched. -/
def Client.applicationRequest (client : Client) (name : String) : Request :=
  ⟨.GET, client.MARATHON_API_APPS ++ name, .query ""⟩

/-- The client once it has issued the requests `rs`, in that order. -/
def Client.after (client : Client) (rs : List Request) : Client :=
  { client with log := client.log ++ rs }

/-- The identifiers of an application list document, in list order. -/
def Applications.ids (apps : Marathon.Applications) : List String :=
  (apps.Apps.getD []).map (fun application => application.ID)

/-- The application `name` exists remotely and is fetched successfully as `app`:
the name is not empty, the remote system answers the list request with a list
holding an application whose ID is `name`, and it then answers the request for
the document of `name` with `app`. -/
def Client.Serves (client : Client) (name : String) (app : Marathon.Application) : Prop :=
  name ≠ "" ∧ ∃ apps : Marathon.Applications,
    client.respond client.log client.listRequest .applications = .ok apps ∧
    name ∈ apps.ids ∧
    client.respond (client.log ++ [client.listRequest]) (client.applicationRequest name)
      .applicationWrap = .ok ⟨app⟩

/-- The results attached to an element of `Tasks`: those of the task, none for
a nil element or a nil result list. -/
def taskResults : Option Task → List HealthCheckResult
  | none => []
  | some task => task.HealthCheckResult.getD []

/-- Every health check result of the application, in task order and, within a
task, in result order. -/
def Application.results (app : Application) : List HealthCheckResult :=
  (app.Tasks.getD []).flatMap taskResults

/-- The verdict as the specification words it, a pure conjunction: no health
check is declared, or every result attached to every task is alive. -/
def verdictSpec (app : Application) : Bool :=
  (app.HealthChecks.getD []).isEmpty ||
    (app.Tasks.getD []).all (fun task => (taskResults task).all (fun check => check.Alive))

/-- One call of the configuration surface of `Application`. -/
inductive BuilderCall where
  | Name (id : String)
  | CPU (cpu : Float32)
  | Storage (disk : Float32)
  | Memory (memory : Float32)
  | Count (count : Int)
  | DependsOn (name : String)
  | Arg (argument : String)
  | AddEnv (name value : String)
deriving DecidableEq, Repr

/-- The call made on the instance at the address `application`. -/
def BuilderCall.run (store : Store Application) (application : Nat) :
    BuilderCall → Option (Nat × Store Application)
  | .Name id => Application.Name store application id
  | .CPU cpu => Application.CPU store application cpu
  | .Storage disk => Application.Storage store application disk
  | .Memory memory => Application.Memory store application memory
  | .Count count => Application.Count store application count
  | .DependsOn name => Application.DependsOn store application name
  | .Arg argument => Application.Arg store application argument
  | .AddEnv name value => Application.AddEnv store application name value

/-- A sequence of calls, each made on the instance the previous call returned. -/
def BuilderCall.chain (store : Store Application) (application : Nat) :
    List BuilderCall → Option (Nat × Store Application)
  | [] => some (application, store)
  | call :: calls =>
    match call.run store application with
    | none => none
    | some (application, store) => BuilderCall.chain store application calls

/-- Whether the call is a call of `Name`. -/
def BuilderCall.isName : BuilderCall → Bool
  | .Name _ => true
  | _ => false

/-- The object the returned pointer designates once a builder has returned. -/
def builtObject {α : Type} (r : Option (Nat × Store α)) : Option α :=
  r.bind (fun r => r.2.read r.1)

/-- The JSON keys of the application a chain of calls builds from the zero value
`new(Application)`, placed at the address 1. -/
def builtKeys (calls : List BuilderCall) : Option (List String) :=
  (builtObject (BuilderCall.chain (Store.single 1 {}) 1 calls)).map Application.jsonKeys

/-! ## Sample data -/

/-- A remote system listing the applications `webapp`, `web` and `db`, serving
`app` as the document of any application, the versions `v1` and `v2`, and
accepting every update. -/
def sampleClient (app : Application) : Client where
  MARATHON_API_APPS := "/v2/apps/"
  respond := fun _ _ d =>
    match d with
    | .applications => .ok ⟨some [{ ID := "webapp" }, { ID := "web" }, { ID := "db" }]⟩
    | .applicationWrap => .ok ⟨app⟩
    | .applicationVersions => .ok ⟨some ["v1", "v2"]⟩
    | .deploymentID => .ok ⟨"deployment-1"⟩
    | .nothing => .ok ()
  log := []

/-- A remote system failing every request with the error `e`. -/
def failingClient (e : Error) : Client where
  MARATHON_API_APPS := "/v2/apps/"
  respond := fun _ _ _ => .error e
  log := []

/-- The tasks of the scenario: `T1` with one alive result, `T2` with an alive
result followed by a dead one. -/
def scenarioTasks : List (Option Task) :=
  [some { ID := "T1", HealthCheckResult := some [{ Alive := true }] },
   some { ID := "T2", HealthCheckResult := some [{ Alive := true }, { Alive := false }] }]

/-- The scenario application with one declared health check. -/
def scenarioApp : Application :=
  { ID := "web", HealthChecks := some [{ Protocol := "HTTP" }], Tasks := some scenarioTasks }

/-- The scenario application with no declared health check. -/
def uncheckedApp : Application :=
  { ID := "web", Tasks := some scenarioTasks }

/-- An application with one declared health check and no task list. -/
def idleApp : Application :=
  { ID := "web", HealthChecks := some [{ Protocol := "HTTP" }] }

/-- The scenario application with its tasks, and the results of `T2`, in the
reverse order. -/
def reversedApp : Application :=
  { ID := "web", HealthChecks := some [{ Protocol := "HTTP" }],
    Tasks := some
      [some { ID := "T2", HealthCheckResult := some [{ Alive := false }, { Alive := true }] },
       some { ID := "T1", HealthCheckResult := some [{ Alive := true }] }] }

/-- An application with one declared health check whose task list holds a nil
element before the task `T2`, which has a dead result. -/
def nilFirstApp : Application :=
  { ID := "web", HealthChecks := some [{ Protocol := "HTTP" }],
    Tasks := some [none, some { ID := "T2", HealthCheckResult := some [{ Alive := false }] }] }

/-- The same application with the two elements of its task list swapped. -/
def nilLastApp : Application :=
  { ID := "web", HealthChecks := some [{ Protocol := "HTTP" }],
    Tasks := some [some { ID := "T2", HealthCheckResult := some [{ Alive := false }] }, none] }

/-- A remote system that lists the application `web` and fails every other
request with the error `e`. -/
def listOnlyClient (e : Error) : Client where
  MARATHON_API_APPS := "/v2/apps/"
  respond := fun _ _ d =>
    match d with
    | .applications => .ok ⟨some [{ ID := "web" }]⟩
    | _ => .error e
  log := []

/-- The `float32` value 0.5. -/
def half : Float32 := ⟨0x3f000000⟩

/-- The `float32` value 64. -/
def sixtyFour : Float32 := ⟨0x42800000⟩

/-- An application with a dependency, an argument and two environment
variables. -/
def configuredApp : Application :=
  { ID := "web", Dependencies := some ["db"], Args := some ["-v"],
    Env := some [("A", "1"), ("B", "2")] }

/-- A Docker descriptor with one port mapping. -/
def sampleDocker : Docker :=
  { Image := "nginx", Network := "HOST",
    PortMappings := some [{ ContainerPort := 80, Protocol := "tcp" }] }

/-! ## Lemmas on the operations -/

theorem string_append_eq_self (a b : String) (h : a ++ b = a) : b = "" := by
  have hdata := congrArg String.data h
  rw [String.data_append] at hdata
  have hb : b.data = [] := by simpa using hdata
  cases b with
  | mk data => cases hb; rfl

theorem foldl_append_ids (xs : List Application) (acc : List String) :
    xs.foldl (fun list application => list ++ [application.ID]) acc
      = acc ++ xs.map (fun application => application.ID) := by
  induction xs generalizing acc with
  | nil => simp
  | cons x xs ih => simp [ih]

theorem hasApplication_loop_eq (name : String) (ids : List String) :
    HasApplication.loop name ids = decide (name ∈ ids) := by
  induction ids with
  | nil => simp [HasApplication.loop]
  | cons id rest ih =>
    by_cases h : name = id
    · simp [HasApplication.loop, h]
    · simp [HasApplication.loop, h, ih]

theorem checkLoop_eq (results : List HealthCheckResult) :
    ApplicationOK.checkLoop results
      = if results.all (fun check => check.Alive) then none else some (false, none) := by
  induction results with
  | nil => simp [ApplicationOK.checkLoop]
  | cons check rest ih =>
    cases h : check.Alive <;> simp [ApplicationOK.checkLoop, h, ih]

theorem taskLoop_of_no_nil (tasks : List (Option Task)) (h : none ∉ tasks) :
    ApplicationOK.taskLoop tasks
      = some (tasks.all (fun task => (taskResults task).all (fun check => check.Alive)), none) := by
  induction tasks with
  | nil => simp [ApplicationOK.taskLoop]
  | cons entry rest ih =>
    have hrest : none ∉ rest := fun hin => h (List.mem_cons_of_mem _ hin)
    cases entry with
    | none => exact absurd (List.mem_cons_self _ _) h
    | some task =>
      cases hr : task.HealthCheckResult with
      | none => simp [ApplicationOK.taskLoop, taskResults, hr, ih hrest]
      | some results =>
        by_cases hall : results.all (fun check => check.Alive) = true
        · simp [ApplicationOK.taskLoop, taskResults, hr, checkLoop_eq, hall, ih hrest]
        · simp [ApplicationOK.taskLoop, taskResults, hr, checkLoop_eq, hall]

theorem taskLoop_of_dead (before later : List (Option Task)) (task : Task)
    (hbefore : none ∉ before) (check : HealthCheckResult)
    (hcheck : check ∈ task.HealthCheckResult.getD []) (hdead : check.Alive = false) :
    ApplicationOK.taskLoop (before ++ some task :: later) = some (false, none) := by
  induction before with
  | nil =>
    cases hr : task.HealthCheckResult with
    | none => rw [hr] at hcheck; simp at hcheck
    | some results =>
      rw [hr] at hcheck
      have hnot : ¬ results.all (fun check => check.Alive) = true := by
        intro hall
        rw [List.all_eq_true] at hall
        have := hall check (by simpa using hcheck)
        rw [hdead] at this
        exact Bool.false_ne_true this
      simp [ApplicationOK.taskLoop, hr, checkLoop_eq, hnot]
  | cons entry rest ih =>
    have hrest : none ∉ rest := fun hin => hbefore (List.mem_cons_of_mem _ hin)
    cases entry with
    | none => exact absurd (List.mem_cons_self _ _) hbefore
    | some first =>
      cases hr : first.HealthCheckResult with
      | none => simp [ApplicationOK.taskLoop, hr, ih hrest]
      | some results =>
        by_cases hall : results.all (fun check => check.Alive) = true
        · simp [ApplicationOK.taskLoop, hr, checkLoop_eq, hall, ih hrest]
        · simp [ApplicationOK.taskLoop, hr, checkLoop_eq, hall]

theorem verdict_eq_taskLoop (app : Application) :
    ApplicationOK.verdict app
      = if (app.HealthChecks.getD []).isEmpty then some (true, none)
        else ApplicationOK.taskLoop (app.Tasks.getD []) := by
  unfold ApplicationOK.verdict
  cases hh : app.HealthChecks with
  | none => simp
  | some checks =>
    cases checks with
    | nil => simp
    | cons c cs =>
      cases ht : app.Tasks with
      | none => simp [ApplicationOK.taskLoop]
      | some tasks =>
        cases tasks with
        | nil => simp [ApplicationOK.taskLoop]
        | cons t ts => simp

theorem verdict_eq_spec (app : Application) (h : none ∉ app.Tasks.getD []) :
    ApplicationOK.verdict app = some (verdictSpec app, none) := by
  rw [verdict_eq_taskLoop, taskLoop_of_no_nil _ h]
  unfold verdictSpec
  cases hc : (app.HealthChecks.getD []).isEmpty <;> simp

theorem verdictSpec_eq_results (app : Application) :
    verdictSpec app
      = ((app.HealthChecks.getD []).isEmpty || app.results.all (fun check => check.Alive)) := by
  unfold verdictSpec Application.results
  congr 1
  rw [Bool.eq_iff_iff]
  simp only [List.all_eq_true, List.mem_flatMap]
  constructor
  · rintro h r ⟨t, ht, hr⟩
    exact h t ht r hr
  · intro h t ht r hr
    exact h r ⟨t, ht, hr⟩

theorem applications_eq (client : Client) :
    client.Applications
      = (client.respond client.log client.listRequest .applications,
          client.after [client.listRequest]) := by
  unfold Client.Applications Client.ApiGet Client.call Client.after Client.listRequest
  cases client.respond client.log ⟨.GET, client.MARATHON_API_APPS, .query ""⟩ .applications <;> rfl

theorem listApplications_of_ok (client : Client) (apps : Marathon.Applications)
    (h : client.respond client.log client.listRequest .applications = .ok apps) :
    client.ListApplications = (.ok apps.ids, client.after [client.listRequest]) := by
  unfold Client.ListApplications
  rw [applications_eq, h]
  simp [foldl_append_ids, Applications.ids]

theorem listApplications_of_error (client : Client) (e : Error)
    (h : client.respond client.log client.listRequest .applications = .error e) :
    client.ListApplications = (.error e, client.after [client.listRequest]) := by
  unfold Client.ListApplications
  rw [applications_eq, h]

theorem hasApplication_of_ok (client : Client) (name : String) (apps : Marathon.Applications)
    (hname : name ≠ "")
    (h : client.respond client.log client.listRequest .applications = .ok apps) :
    client.HasApplication name
      = ((decide (name ∈ apps.ids), none), client.after [client.listRequest]) := by
  unfold Client.HasApplication
  rw [listApplications_of_ok client apps h]
  by_cases hm : name ∈ apps.ids <;> simp [hname, hasApplication_loop_eq, hm]

theorem application_eq (client : Client) (name : String) :
    client.Application name
      = ((client.respond client.log (client.applicationRequest name) .applicationWrap).map
            (fun wrap => wrap.Application),
          client.after [client.applicationRequest name]) := by
  unfold Client.Application Client.ApiGet Client.call Client.after Client.applicationRequest
  cases client.respond client.log ⟨.GET, client.MARATHON_API_APPS ++ name, .query ""⟩
    .applicationWrap <;> rfl

theorem applicationOK_of_serves (client : Client) (name : String) (app : Application)
    (h : client.Serves name app) :
    client.ApplicationOK name
      = (ApplicationOK.verdict app).map
          (fun r => (r, client.after [client.listRequest, client.applicationRequest name])) := by
  obtain ⟨hname, apps, hlist, hmem, hfetch⟩ := h
  unfold Client.ApplicationOK
  rw [hasApplication_of_ok client name apps hname hlist]
  simp only [hmem, decide_True, Bool.not_true, Bool.false_eq_true, if_false]
  rw [application_eq]
  have hfetch2 : (client.after [client.listRequest]).respond (client.after [client.listRequest]).log
      ((client.after [client.listRequest]).applicationRequest name) .applicationWrap
      = .ok ⟨app⟩ := hfetch
  rw [hfetch2]
  cases hv : ApplicationOK.verdict app <;>
    simp [hv, Client.after, Except.map, Client.applicationRequest]

theorem applicationOK_of_verdict (client : Client) (name : String) (app : Application)
    (h : client.Serves name app) (r : Bool × Option Error)
    (hr : ApplicationOK.verdict app = some r) :
    client.ApplicationOK name
      = some (r, client.after [client.listRequest, client.applicationRequest name]) := by
  rw [applicationOK_of_serves client name app h, hr]
  rfl

theorem sampleClient_serves (app : Application) : (sampleClient app).Serves "web" app :=
  ⟨by decide, _, rfl, by decide, rfl⟩

theorem isEmpty_of_length_pos {α : Type} (l : List α) (h : 0 < l.length) : l.isEmpty = false := by
  cases l with
  | nil => exact absurd h (Nat.lt_irrefl 0)
  | cons a l => rfl

theorem verdictSpec_congr (app app2 : Application)
    (hchecks : app2.HealthChecks = app.HealthChecks)
    (hperm : app2.results.Perm app.results) : verdictSpec app2 = verdictSpec app := by
  rw [verdictSpec_eq_results, verdictSpec_eq_results, hchecks]
  congr 1
  rw [Bool.eq_iff_iff]
  simp only [List.all_eq_true]
  constructor
  · intro h r hr
    exact h r (hperm.mem_iff.mpr hr)
  · intro h r hr
    exact h r (hperm.mem_iff.mp hr)

/-! ## The health verdict of `ApplicationOK` -/

/-- C1, as stated, fails, in two ways.  The application `web` exists remotely and
is fetched successfully, it has two tasks and the result list of `T2` ends with a
result whose `Alive` is false, yet `ApplicationOK` returns `(true, nil)`, because
the application declares no health check.  And with one health check declared
and the task list `[nil, T2]`, where `T2` has a dead result, `ApplicationOK`
returns nothing: it panics on the nil element before it reaches `T2`. -/
theorem applicationOK_true_despite_dead_result :
    ((sampleClient uncheckedApp).Serves "web" uncheckedApp ∧
      0 < (uncheckedApp.Tasks.getD []).length ∧
      (∃ task, some task ∈ uncheckedApp.Tasks.getD [] ∧
        ∃ check ∈ task.HealthCheckResult.getD [], check.Alive = false) ∧
      ((sampleClient uncheckedApp).ApplicationOK "web").map Prod.fst = some (true, none) ∧
      ((sampleClient uncheckedApp).ApplicationOK "web").map Prod.fst ≠ some (false, none)) ∧
    ((sampleClient nilFirstApp).Serves "web" nilFirstApp ∧
      0 < (nilFirstApp.HealthChecks.getD []).length ∧
      (∃ task, some task ∈ nilFirstApp.Tasks.getD [] ∧
        ∃ check ∈ task.HealthCheckResult.getD [], check.Alive = false) ∧
      (sampleClient nilFirstApp).ApplicationOK "web" = none) :=
  ⟨⟨sampleClient_serves uncheckedApp, by decide,
      ⟨{ ID := "T2", HealthCheckResult := some [{ Alive := true }, { Alive := false }] },
        by decide, { Alive := false }, by decide, rfl⟩,
      by decide, by decide⟩,
    ⟨sampleClient_serves nilFirstApp, by decide,
      ⟨{ ID := "T2", HealthCheckResult := some [{ Alive := false }] },
        by decide, { Alive := false }, by decide, rfl⟩,
      rfl⟩⟩

/-- C1, amended: for every application that exists remotely, is fetched
successfully and declares at least one health check, if some result of some task
has `Alive = false` and no element of the task list before that task is nil, then
`ApplicationOK(name)` returns `(false, nil)`, whatever the other results are,
wherever the failing result sits and whatever follows that task; the two
requests it issues are the list request and the fetch of the document. -/
theorem applicationOK_false_of_dead_result (client : Client) (name : String) (app : Application)
    (h : client.Serves name app)
    (hchecks : 0 < (app.HealthChecks.getD []).length)
    (before later : List (Option Task)) (task : Task)
    (htasks : app.Tasks.getD [] = before ++ some task :: later)
    (hbefore : none ∉ before)
    (check : HealthCheckResult) (hcheck : check ∈ task.HealthCheckResult.getD [])
    (hdead : check.Alive = false) :
    client.ApplicationOK name
      = some ((false, none),
          client.after [client.listRequest, client.applicationRequest name]) := by
  apply applicationOK_of_verdict client name app h
  rw [verdict_eq_taskLoop, isEmpty_of_length_pos _ hchecks, htasks]
  exact taskLoop_of_dead before later task hbefore check hcheck hdead

/-- The scenario of C1 with one declared health check: tasks `[T1, T2]`, `T1`
with results `[alive]`, `T2` with results `[alive, dead]`, gives `false`; and so
does the task list `[T2, nil]`, where the nil element follows the failing task. -/
theorem applicationOK_false_of_dead_result_witness :
    (sampleClient scenarioApp).Serves "web" scenarioApp ∧
    0 < (scenarioApp.HealthChecks.getD []).length ∧
    (sampleClient scenarioApp).ApplicationOK "web"
      = some ((false, none),
          (sampleClient scenarioApp).after
            [(sampleClient scenarioApp).listRequest,
             (sampleClient scenarioApp).applicationRequest "web"]) ∧
    (sampleClient nilLastApp).ApplicationOK "web"
      = some ((false, none),
          (sampleClient nilLastApp).after
            [(sampleClient nilLastApp).listRequest,
             (sampleClient nilLastApp).applicationRequest "web"]) :=
  ⟨sampleClient_serves scenarioApp, by decide,
    applicationOK_false_of_dead_result (sampleClient scenarioApp) "web" scenarioApp
      (sampleClient_serves scenarioApp) (by decide)
      [some { ID := "T1", HealthCheckResult := some [{ Alive := true }] }] []
      { ID := "T2", HealthCheckResult := some [{ Alive := true }, { Alive := false }] }
      rfl (by decide) { Alive := false } (by decide) rfl,
    applicationOK_false_of_dead_result (sampleClient nilLastApp) "web" nilLastApp
      (sampleClient_serves nilLastApp) (by decide) [] [none]
      { ID := "T2", HealthCheckResult := some [{ Alive := false }] }
      rfl (by decide) { Alive := false } (by decide) rfl⟩

/-- C2, as stated, fails: the application `web` is listed and fetched
successfully with one health check and the task list `[nil, T2]`, where `T2` has
a dead result, and `ApplicationOK` returns no `(v, nil)`: it panics on the nil
element; with the two elements swapped, the same results in another order of
tasks, it returns `(false, nil)`, so the outcome depends on the order. -/
theorem applicationOK_panics_on_nil_task :
    (sampleClient nilFirstApp).Serves "web" nilFirstApp ∧
    (sampleClient nilFirstApp).ApplicationOK "web" = none ∧
    (sampleClient nilLastApp).Serves "web" nilLastApp ∧
    nilLastApp.HealthChecks = nilFirstApp.HealthChecks ∧
    (nilLastApp.Tasks.getD []).Perm (nilFirstApp.Tasks.getD []) ∧
    ((sampleClient nilLastApp).ApplicationOK "web").map Prod.fst = some (false, none) :=
  ⟨sampleClient_serves nilFirstApp, rfl, sampleClient_serves nilLastApp, rfl, by decide,
    by decide⟩

/-- C2, amended: for every non-empty name that is listed remotely and whose
document is fetched successfully as `app`, if no element of the task list of
`app` is nil then `ApplicationOK(name)` returns `(v, nil)` where `v` is the pure
conjunction `verdictSpec app` (no health check declared, or every result of every
task alive); once a health check is declared the verdict is false exactly when
some result has `Alive = false`; and the verdict is the same for any other
application without nil task, fetched the same way, with the same health checks
and the same results in another order (of tasks or of results). -/
theorem applicationOK_eq_conjunction (client : Client) (name : String) (app : Application)
    (h : client.Serves name app) (hnil : none ∉ app.Tasks.getD []) :
    client.ApplicationOK name
        = some ((verdictSpec app, none),
            client.after [client.listRequest, client.applicationRequest name]) ∧
    (0 < (app.HealthChecks.getD []).length →
      ((client.ApplicationOK name).map (fun r => r.1.1) = some false ↔
        ∃ task, some task ∈ app.Tasks.getD [] ∧
          ∃ check ∈ task.HealthCheckResult.getD [], check.Alive = false)) ∧
    (∀ (client2 : Client) (app2 : Application), client2.Serves name app2 →
      none ∉ app2.Tasks.getD [] →
      app2.HealthChecks = app.HealthChecks → app2.results.Perm app.results →
      (client2.ApplicationOK name).map Prod.fst = (client.ApplicationOK name).map Prod.fst) := by
  have hmain := applicationOK_of_verdict client name app h _ (verdict_eq_spec app hnil)
  refine ⟨hmain, ?_, ?_⟩
  · intro hchecks
    rw [hmain]
    simp only [Option.map_some', Option.some.injEq, verdictSpec,
      isEmpty_of_length_pos _ hchecks, Bool.false_or]
    rw [← Bool.not_eq_true, List.all_eq_true]
    constructor
    · intro hn
      by_contra hex
      apply hn
      intro entry hentry
      rw [List.all_eq_true]
      intro check hcheck
      cases entry with
      | none => exact absurd hentry hnil
      | some task =>
        cases hal : check.Alive with
        | true => rfl
        | false => exact absurd ⟨task, hentry, check, hcheck, hal⟩ hex
    · rintro ⟨task, htask, check, hcheck, hdead⟩ hall
      have h1 := hall (some task) htask
      rw [List.all_eq_true] at h1
      have h2 := h1 check hcheck
      rw [hdead] at h2
      exact Bool.false_ne_true h2
  · intro client2 app2 h2 hnil2 hchecks hperm
    have hmain2 := applicationOK_of_verdict client2 name app2 h2 _ (verdict_eq_spec app2 hnil2)
    rw [hmain, hmain2, verdictSpec_congr app app2 hchecks hperm]
    rfl

/-- The scenario and its reverse, neither with a nil task: both are judged
`false`. -/
theorem applicationOK_eq_conjunction_witness :
    (sampleClient scenarioApp).Serves "web" scenarioApp ∧
    none ∉ scenarioApp.Tasks.getD [] ∧
    ((sampleClient scenarioApp).ApplicationOK "web").map Prod.fst = some (false, none) ∧
    ((sampleClient reversedApp).ApplicationOK "web").map Prod.fst
      = ((sampleClient scenarioApp).ApplicationOK "web").map Prod.fst :=
  ⟨sampleClient_serves scenarioApp, by decide,
    congrArg (Option.map Prod.fst)
      (applicationOK_eq_conjunction (sampleClient scenarioApp) "web" scenarioApp
        (sampleClient_serves scenarioApp) (by decide)).1,
    (applicationOK_eq_conjunction (sampleClient scenarioApp) "web" scenarioApp
        (sampleClient_serves scenarioApp) (by decide)).2.2 (sampleClient reversedApp) reversedApp
      (sampleClient_serves reversedApp) (by decide) rfl (by decide)⟩

/-- C3: for every application that exists remotely and is fetched successfully
with zero configured health checks (`HealthChecks` nil or empty),
`ApplicationOK(name)` returns `(true, nil)`, whatever its tasks and their results
are. -/
theorem applicationOK_true_of_no_health_checks (client : Client) (name : String)
    (app : Application) (h : client.Serves name app)
    (hchecks : app.HealthChecks = none ∨ app.HealthChecks = some []) :
    client.ApplicationOK name
      = some ((true, none),
          client.after [client.listRequest, client.applicationRequest name]) := by
  apply applicationOK_of_verdict client name app h
  rcases hchecks with hc | hc <;> simp [ApplicationOK.verdict, hc]

/-- An application without health checks whose task `T2` carries a result with
`Alive = false` is judged `true`. -/
theorem applicationOK_true_of_no_health_checks_witness :
    (sampleClient uncheckedApp).Serves "web" uncheckedApp ∧
    (uncheckedApp.HealthChecks = none ∨ uncheckedApp.HealthChecks = some []) ∧
    (∃ task, some task ∈ uncheckedApp.Tasks.getD [] ∧
      ∃ check ∈ task.HealthCheckResult.getD [], check.Alive = false) ∧
    (sampleClient uncheckedApp).ApplicationOK "web"
      = some ((true, none),
          (sampleClient uncheckedApp).after
            [(sampleClient uncheckedApp).listRequest,
             (sampleClient uncheckedApp).applicationRequest "web"]) :=
  ⟨sampleClient_serves uncheckedApp, Or.inl rfl,
    ⟨{ ID := "T2", HealthCheckResult := some [{ Alive := true }, { Alive := false }] },
      by decide, { Alive := false }, by decide, rfl⟩,
    applicationOK_true_of_no_health_checks (sampleClient uncheckedApp) "web" uncheckedApp
      (sampleClient_serves uncheckedApp) (Or.inl rfl)⟩

/-- C4: for every application that exists remotely and is fetched successfully
with at least one health check and zero tasks (`Tasks` nil or empty),
`ApplicationOK(name)` returns `(true, nil)`. -/
theorem applicationOK_true_of_no_tasks (client : Client) (name : String)
    (app : Application) (h : client.Serves name app)
    (_hchecks : 0 < (app.HealthChecks.getD []).length)
    (htasks : app.Tasks = none ∨ app.Tasks = some []) :
    client.ApplicationOK name
      = some ((true, none),
          client.after [client.listRequest, client.applicationRequest name]) := by
  apply applicationOK_of_verdict client name app h
  rcases htasks with ht | ht <;> simp [ApplicationOK.verdict, ht]

/-- An application with one health check and a nil task list is judged `true`. -/
theorem applicationOK_true_of_no_tasks_witness :
    (sampleClient idleApp).Serves "web" idleApp ∧
    0 < (idleApp.HealthChecks.getD []).length ∧
    (idleApp.Tasks = none ∨ idleApp.Tasks = some []) ∧
    (sampleClient idleApp).ApplicationOK "web"
      = some ((true, none),
          (sampleClient idleApp).after
            [(sampleClient idleApp).listRequest, (sampleClient idleApp).applicationRequest "web"]) :=
  ⟨sampleClient_serves idleApp, by decide, Or.inl rfl,
    applicationOK_true_of_no_tasks (sampleClient idleApp) "web" idleApp
      (sampleClient_serves idleApp) (by decide) (Or.inl rfl)⟩

/-- C6: for every non-empty name, if the application list is fetched
successfully and no listed application has an ID equal to `name`, then
`ApplicationOK(name)` returns `(false, ErrDoesNotExist)`; the only request it
issues is the list request, which is not the request for the document of
`name`: the document is never requested. -/
theorem applicationOK_not_listed (client : Client) (name : String)
    (apps : Marathon.Applications) (hname : name ≠ "")
    (hlist : client.respond client.log client.listRequest .applications = .ok apps)
    (hmem : name ∉ apps.ids) :
    client.ApplicationOK name
        = some ((false, some .ErrDoesNotExist), client.after [client.listRequest]) ∧
    (client.ApplicationOK name).map (fun r => r.2.log)
        = some (client.log ++ [client.listRequest]) ∧
    client.applicationRequest name ∉ [client.listRequest] := by
  have hmain : client.ApplicationOK name
      = some ((false, some .ErrDoesNotExist), client.after [client.listRequest]) := by
    unfold Client.ApplicationOK
    rw [hasApplication_of_ok client name apps hname hlist]
    simp [hmem]
  refine ⟨hmain, ?_, ?_⟩
  · rw [hmain]
    rfl
  · intro hin
    rw [List.mem_singleton] at hin
    have huri : client.MARATHON_API_APPS ++ name = client.MARATHON_API_APPS :=
      congrArg Request.uri hin
    exact hname (string_append_eq_self _ _ huri)

/-- The name `we` is a proper part of the listed `web` and `webapp`, and is not
listed itself: `ApplicationOK("we")` reports `ErrDoesNotExist` after the list
request alone. -/
theorem applicationOK_not_listed_witness :
    "we" ≠ "" ∧
    "we" ∉ Applications.ids ⟨some [{ ID := "webapp" }, { ID := "web" }, { ID := "db" }]⟩ ∧
    (sampleClient scenarioApp).ApplicationOK "we"
        = some ((false, some .ErrDoesNotExist),
            (sampleClient scenarioApp).after [(sampleClient scenarioApp).listRequest]) ∧
    ((sampleClient scenarioApp).ApplicationOK "we").map (fun r => r.2.log)
        = some ((sampleClient scenarioApp).log ++ [(sampleClient scenarioApp).listRequest]) ∧
    (sampleClient scenarioApp).applicationRequest "we"
        ∉ [(sampleClient scenarioApp).listRequest] :=
  ⟨by decide, by decide,
    applicationOK_not_listed (sampleClient scenarioApp) "we"
      ⟨some [{ ID := "webapp" }, { ID := "web" }, { ID := "db" }]⟩ (by decide) rfl (by decide)⟩

/-- C7: `HasApplication("")` returns `(false, ErrInvalidArgument)` and issues no
request: the client, its request log included, is left as it was, whatever the
remote system would answer. -/
theorem hasApplication_empty_name (client : Client) :
    client.HasApplication "" = ((false, some .ErrInvalidArgument), client) ∧
    (client.HasApplication "").2.log = client.log := by
  have h : client.HasApplication "" = ((false, some .ErrInvalidArgument), client) := by
    simp [Client.HasApplication]
  exact ⟨h, by rw [h]⟩

/-- C8: for every non-empty name, when the application list is fetched
successfully, `HasApplication(name)` returns `(true, nil)` if and only if some
listed application has an ID exactly equal to `name`, and `(false, nil)`
otherwise; the names it tests are those `ListApplications` returns, which are
the IDs of the list `Applications()` returns, in list order. -/
theorem hasApplication_iff_listed (client : Client) (name : String)
    (apps : Marathon.Applications) (hname : name ≠ "")
    (hlist : client.respond client.log client.listRequest .applications = .ok apps) :
    client.Applications = (.ok apps, client.after [client.listRequest]) ∧
    client.ListApplications
        = (.ok ((apps.Apps.getD []).map (fun application => application.ID)),
            client.after [client.listRequest]) ∧
    ((client.HasApplication name).1 = (true, none) ↔
      ∃ application ∈ apps.Apps.getD [], application.ID = name) ∧
    ((¬ ∃ application ∈ apps.Apps.getD [], application.ID = name) →
      (client.HasApplication name).1 = (false, none)) ∧
    (client.HasApplication name).2 = client.after [client.listRequest] := by
  have hhas := hasApplication_of_ok client name apps hname hlist
  have hiff : name ∈ apps.ids ↔ ∃ application ∈ apps.Apps.getD [], application.ID = name := by
    simp [Applications.ids]
  refine ⟨?_, listApplications_of_ok client apps hlist, ?_, ?_, ?_⟩
  · rw [applications_eq, hlist]
  · rw [hhas, ← hiff]
    simp
  · intro hno
    rw [hhas]
    have : name ∉ apps.ids := fun hin => hno (hiff.mp hin)
    simp [this]
  · rw [hhas]

/-- The remote system lists `webapp`, `web` and `db`: `web` is found, while `we`,
`Web` and `web ` (none an exact ID) are not. -/
theorem hasApplication_iff_listed_witness :
    "web" ≠ "" ∧
    ((sampleClient scenarioApp).ListApplications).1 = .ok ["webapp", "web", "db"] ∧
    ((sampleClient scenarioApp).HasApplication "web").1 = (true, none) ∧
    ((sampleClient scenarioApp).HasApplication "we").1 = (false, none) ∧
    ((sampleClient scenarioApp).HasApplication "Web").1 = (false, none) ∧
    ((sampleClient scenarioApp).HasApplication "web ").1 = (false, none) :=
  ⟨by decide,
    congrArg Prod.fst
      (hasApplication_iff_listed (sampleClient scenarioApp) "web"
        ⟨some [{ ID := "webapp" }, { ID := "web" }, { ID := "db" }]⟩ (by decide) rfl).2.1,
    (hasApplication_iff_listed (sampleClient scenarioApp) "web"
        ⟨some [{ ID := "webapp" }, { ID := "web" }, { ID := "db" }]⟩ (by decide) rfl).2.2.1.mpr
      ⟨{ ID := "web" }, by decide, rfl⟩,
    (hasApplication_iff_listed (sampleClient scenarioApp) "we"
        ⟨some [{ ID := "webapp" }, { ID := "web" }, { ID := "db" }]⟩ (by decide) rfl).2.2.2.1
      (by decide),
    (hasApplication_iff_listed (sampleClient scenarioApp) "Web"
        ⟨some [{ ID := "webapp" }, { ID := "web" }, { ID := "db" }]⟩ (by decide) rfl).2.2.2.1
      (by decide),
    (hasApplication_iff_listed (sampleClient scenarioApp) "web "
        ⟨some [{ ID := "webapp" }, { ID := "web" }, { ID := "db" }]⟩ (by decide) rfl).2.2.2.1
      (by decide)⟩

/-- C9: for every name and version, when `ApplicationVersions(name)` succeeds with
the version sequence `vs`, `HasApplicationVersion(name, version)` returns
`(true, nil)` if and only if `version` is a member of `vs`, and `(false, nil)`
otherwise; when `ApplicationVersions(name)` fails with the error `e` it returns
`(false, e)`; in both cases it issues the requests of `ApplicationVersions(name)`
and no other. -/
theorem hasApplicationVersion_iff_member (client : Client) (name version : String) :
    (∀ vs : Marathon.ApplicationVersions, (client.ApplicationVersions name).1 = .ok vs →
      (((client.HasApplicationVersion name version).1 = (true, none) ↔
          version ∈ vs.Versions.getD []) ∧
        (version ∉ vs.Versions.getD [] →
          (client.HasApplicationVersion name version).1 = (false, none)))) ∧
    (∀ e : Error, (client.ApplicationVersions name).1 = .error e →
      (client.HasApplicationVersion name version).1 = (false, some e)) ∧
    (client.HasApplicationVersion name version).2 = (client.ApplicationVersions name).2 := by
  have hcontains : ∀ vs : Marathon.ApplicationVersions,
      Contains vs.Versions version = decide (version ∈ vs.Versions.getD []) := by
    intro vs
    cases hv : vs.Versions with
    | none => simp [Contains]
    | some es =>
      rw [Bool.eq_iff_iff]
      simp only [Contains, List.any_eq_true, beq_iff_eq, decide_eq_true_eq, Option.getD_some]
      constructor
      · rintro ⟨x, hx, rfl⟩
        exact hx
      · intro h
        exact ⟨version, h, rfl⟩
  unfold Client.HasApplicationVersion
  rcases hres : client.ApplicationVersions name with ⟨result, client2⟩
  cases result with
  | error err =>
    refine ⟨?_, ?_, rfl⟩
    · intro vs hvs
      cases hvs
    · intro e he
      cases he
      rfl
  | ok versions =>
    refine ⟨?_, ?_, ?_⟩
    · intro vs hvs
      cases hvs
      simp only [hcontains]
      by_cases hm : version ∈ versions.Versions.getD [] <;> simp [hm]
    · intro e he
      cases he
    · show (if Contains versions.Versions version = true then ((true, none), client2)
          else ((false, none), client2)).2 = client2
      split <;> rfl

/-- The remote system knows the versions `v1` and `v2` of `web`: `v2` is found,
`v` is not; and a failing list call gives `(false, e)`. -/
theorem hasApplicationVersion_iff_member_witness :
    ((sampleClient scenarioApp).ApplicationVersions "web").1 = .ok ⟨some ["v1", "v2"]⟩ ∧
    ((sampleClient scenarioApp).HasApplicationVersion "web" "v2").1 = (true, none) ∧
    ((sampleClient scenarioApp).HasApplicationVersion "web" "v").1 = (false, none) ∧
    ((failingClient (.other "unreachable")).ApplicationVersions "web").1
      = .error (.other "unreachable") ∧
    ((failingClient (.other "unreachable")).HasApplicationVersion "web" "v1").1
      = (false, some (.other "unreachable")) :=
  ⟨rfl,
    ((hasApplicationVersion_iff_member (sampleClient scenarioApp) "web" "v2").1
      ⟨some ["v1", "v2"]⟩ rfl).1.mpr (by decide),
    ((hasApplicationVersion_iff_member (sampleClient scenarioApp) "web" "v").1
      ⟨some ["v1", "v2"]⟩ rfl).2 (by decide),
    rfl,
    (hasApplicationVersion_iff_member (failingClient (.other "unreachable")) "web" "v1").2.1
      (.other "unreachable") rfl⟩

/-! ## Scaling -/

/-- C10, evaluated on the code: for every name and instance count,
`ScaleApplicationInstances(name, instances)` issues exactly one request, a PUT
to the applications base path concatenated with `name`, and returns the result
of the client for it; the body handed to the client is the zero `Application`
but for `ID = name` and `Instances = instances`, yet the JSON document written
for that body has three keys, `id`, `instances` and `Dependencies`: the tag of
`Dependencies` (line 53) lacks its closing quote, so the nil slice is written,
under the Go name of the field. -/
theorem scaleApplicationInstances_body_keys (client : Client) (name : String)
    (instances : Int) :
    ∃ body : Application,
      (client.ScaleApplicationInstances name instances).2
          = client.after [⟨.PUT, client.MARATHON_API_APPS ++ name, .application body⟩] ∧
      body.ID = name ∧ body.Instances = instances ∧
      { body with ID := "", Instances := 0 } = ({} : Application) ∧
      body.jsonKeys = ["id", "instances", "Dependencies"] ∧
      "Dependencies" ∈ body.jsonKeys ∧
      (client.ScaleApplicationInstances name instances).1
          = (match client.respond client.log
                ⟨.PUT, client.MARATHON_API_APPS ++ name, .application body⟩ .nothing with
              | .ok _ => none
              | .error e => some e) := by
  have hkeys : Application.jsonKeys { ID := name, Instances := instances }
      = ["id", "instances", "Dependencies"] := rfl
  refine ⟨{ ID := name, Instances := instances }, ?_, rfl, rfl, rfl, hkeys, ?_, ?_⟩
  · unfold Client.ScaleApplicationInstances Client.ApiPut Client.call Client.after
    simp only
    cases client.respond client.log
      ⟨.PUT, client.MARATHON_API_APPS ++ name,
        .application { ID := name, Instances := instances }⟩ .nothing <;> rfl
  · rw [hkeys]
    decide
  · unfold Client.ScaleApplicationInstances Client.ApiPut Client.call
    simp only
    cases client.respond client.log
      ⟨.PUT, client.MARATHON_API_APPS ++ name,
        .application { ID := name, Instances := instances }⟩ .nothing <;> rfl

/-! ## Restart -/

/-- C11, evaluated on the code: `RestartApplication(name, force)` issues one GET
to base + name + "/restart" with an empty query whatever `force` is, so the call
with `force = true` and the call with `force = false` issue the same request and
give the same result; the result is the error of the client, or the
`DeploymentID` decoded from the response. -/
theorem restartApplication_ignores_force (client : Client) (name : String) :
    client.RestartApplication name true = client.RestartApplication name false ∧
    (∀ force : Bool,
      (client.RestartApplication name force).2
        = client.after [⟨.GET, client.MARATHON_API_APPS ++ name ++ "/restart", .query ""⟩] ∧
      (client.RestartApplication name force).1
        = client.respond client.log
            ⟨.GET, client.MARATHON_API_APPS ++ name ++ "/restart", .query ""⟩ .deploymentID) := by
  refine ⟨rfl, ?_⟩
  intro force
  unfold Client.RestartApplication Client.Debug Client.ApiGet Client.call Client.after
  dsimp only
  cases client.respond client.log
    ⟨.GET, client.MARATHON_API_APPS ++ name ++ "/restart", .query ""⟩ .deploymentID <;>
    exact ⟨rfl, rfl⟩

/-! ## Serialisation -/

/-- C12, evaluated on the code: the application built from the zero value by
`Name("web")` alone is written with the keys `id`, `instances` and
`Dependencies`, though `Count` and `DependsOn` were never called; and the one
built by `Name`, `CPU`, `Memory`, `Count`, `Arg` and `AddEnv` has the key
`Dependencies` as well.  The tags of `Instances` (option `omitemptys`) and of
`Dependencies` (no closing quote) do not ask for `omitempty`, and the latter
gives no key name. -/
theorem jsonKeys_of_built_application :
    builtKeys [.Name "web"] = some ["id", "instances", "Dependencies"] ∧
    builtKeys [.Name "web", .CPU half, .Memory sixtyFour, .Count 2, .Arg "-v", .AddEnv "K" "V"]
      = some ["id", "args", "cpus", "env", "instances", "mem", "Dependencies"] ∧
    jsonField "Instances" "json:\"instances,omitemptys\"" = some ("instances", false) ∧
    jsonField "Dependencies" "json:\"dependencies,omitempty" = some ("Dependencies", false) ∧
    jsonField "Cmd" "json:\"cmd,omitempty\"" = some ("cmd", true) := by
  refine ⟨?_, ?_, ?_, ?_, ?_⟩ <;> decide

/-! ## Health checks -/

/-- C13: every `HealthCheck` setter returns a copy in which the targeted field is
present with the given value and every other field equals that of the receiver
(putting the value of the receiver back in the targeted field gives the
receiver); the setters are functions of the receiver value, which they cannot
change; and `SetPort(0)`, `SetPortIndex(0)` give a present value 0, which is not
the unset state. -/
theorem healthCheck_setters (h : HealthCheck) (c : Marathon.Command) (i : Int) (p : String)
    (b : Bool) :
    ((h.SetCommand c).Command = some c ∧ { h.SetCommand c with Command := h.Command } = h) ∧
    ((h.SetPortIndex i).PortIndex = some i ∧
      { h.SetPortIndex i with PortIndex := h.PortIndex } = h) ∧
    ((h.SetPort i).Port = some i ∧ { h.SetPort i with Port := h.Port } = h) ∧
    ((h.SetPath p).Path = some p ∧ { h.SetPath p with Path := h.Path } = h) ∧
    ((h.SetMaxConsecutiveFailures i).MaxConsecutiveFailures = some i ∧
      { h.SetMaxConsecutiveFailures i with MaxConsecutiveFailures := h.MaxConsecutiveFailures }
        = h) ∧
    ((h.SetIgnoreHTTP1xx b).IgnoreHTTP1xx = some b ∧
      { h.SetIgnoreHTTP1xx b with IgnoreHTTP1xx := h.IgnoreHTTP1xx } = h) ∧
    ((h.SetPort 0).Port = some 0 ∧ (h.SetPort 0).Port ≠ none) ∧
    ((h.SetPortIndex 0).PortIndex = some 0 ∧ (h.SetPortIndex 0).PortIndex ≠ none) := by
  refine ⟨⟨rfl, rfl⟩, ⟨rfl, rfl⟩, ⟨rfl, rfl⟩, ⟨rfl, rfl⟩, ⟨rfl, rfl⟩, ⟨rfl, rfl⟩,
    ⟨rfl, ?_⟩, ⟨rfl, ?_⟩⟩
  · simp [HealthCheck.SetPort]
  · simp [HealthCheck.SetPortIndex]

/-- C14: `NewDefaultHealthCheck` returns a health check with `Protocol = "HTTP"`,
`Path` present and empty, `PortIndex` present and 0, `MaxConsecutiveFailures`
present and 3, `GracePeriodSeconds = 30`, `IntervalSeconds = 10`,
`TimeoutSeconds = 5`, and `Command`, `Port` and `IgnoreHTTP1xx` unset. -/
theorem newDefaultHealthCheck_values :
    NewDefaultHealthCheck.Protocol = "HTTP" ∧
    NewDefaultHealthCheck.Path = some "" ∧
    NewDefaultHealthCheck.PortIndex = some 0 ∧
    NewDefaultHealthCheck.MaxConsecutiveFailures = some 3 ∧
    NewDefaultHealthCheck.GracePeriodSeconds = 30 ∧
    NewDefaultHealthCheck.IntervalSeconds = 10 ∧
    NewDefaultHealthCheck.TimeoutSeconds = 5 ∧
    NewDefaultHealthCheck.Command = none ∧
    NewDefaultHealthCheck.Port = none ∧
    NewDefaultHealthCheck.IgnoreHTTP1xx = none :=
  ⟨rfl, rfl, rfl, rfl, rfl, rfl, rfl, rfl, rfl, rfl⟩

/-! ## The configuration surface of `Application` -/

theorem lookup_filter_ne (m : List (String × String)) (key other : String) (h : other ≠ key) :
    (m.filter (fun entry => entry.1 != key)).lookup other = m.lookup other := by
  induction m with
  | nil => rfl
  | cons entry rest ih =>
    obtain ⟨k, v⟩ := entry
    by_cases hk : k = key
    · subst hk
      have hne : (other == k) = false := by simpa using h
      simp [List.filter, List.lookup, hne, ih]
    · have hkeep : (k != key) = true := by simpa using hk
      by_cases ho : other = k
      · subst ho
        simp [List.filter, hkeep, List.lookup]
      · have hne : (other == k) = false := by simpa using ho
        simp [List.filter, hkeep, List.lookup, hne, ih]

theorem lookup_filter_self (m : List (String × String)) (key : String) :
    (m.filter (fun entry => entry.1 != key)).lookup key = none := by
  induction m with
  | nil => rfl
  | cons entry rest ih =>
    obtain ⟨k, v⟩ := entry
    by_cases hk : k = key
    · subst hk
      simp [List.filter, ih]
    · have hkeep : (k != key) = true := by simpa using hk
      have hne : (key == k) = false := by simpa using fun h : key = k => hk h.symm
      simp [List.filter, hkeep, List.lookup, hne, ih]

theorem lookup_append (m n : List (String × String)) (key : String) :
    (m ++ n).lookup key = (m.lookup key).orElse (fun _ => n.lookup key) := by
  induction m with
  | nil => rfl
  | cons entry rest ih =>
    obtain ⟨k, v⟩ := entry
    cases hk : key == k <;> simp [List.lookup, hk, ih]

theorem mapLookup_mapAssign_self (m : List (String × String)) (key value : String) :
    mapLookup (mapAssign m key value) key = some value := by
  unfold mapLookup mapAssign
  rw [lookup_append, lookup_filter_self]
  simp [List.lookup]

theorem mapLookup_mapAssign_other (m : List (String × String)) (key value other : String)
    (h : other ≠ key) :
    mapLookup (mapAssign m key value) other = mapLookup m other := by
  unfold mapLookup mapAssign
  rw [lookup_append, lookup_filter_ne m key other h]
  have hne : (other == key) = false := by simpa using h
  cases hl : m.lookup other <;> simp [List.lookup, hne]

theorem store_read_write_other {α : Type} (store : Store α) (p q : Nat) (v : α) (h : q ≠ p) :
    (store.write p v).read q = store.read q := by
  simp [Store.read, Store.write, h]

theorem store_read_write_self {α : Type} (store : Store α) (p : Nat) (v : α) :
    (store.write p v).read p = some v := by
  simp [Store.read, Store.write]

/-- C15: `DependsOn`, `Arg` and `AddEnv` need no pre-initialisation: on every
application, whether its `Dependencies` / `Args` / `Env` is nil, allocated and
empty, or filled, they succeed; `DependsOn(n)` and `Arg(a)` leave the earlier
elements in order followed by the one new element (so `[n]`, `[a]` on nil as on
empty), and after `AddEnv(k, v)` the map gives `v` for `k` and what it gave
before for every other key (so it is `{k: v}` on nil as on empty).  Each returns
the receiver and changes no other field and no other object. -/
theorem collection_builders_allocate (store : Store Application) (p : Nat) (obj : Application)
    (h : store.read p = some obj) (n a k v : String) :
    Application.DependsOn store p n
      = some (p, store.write p
          { obj with Dependencies := some (obj.Dependencies.getD [] ++ [n]) }) ∧
    Application.Arg store p a
      = some (p, store.write p { obj with Args := some (obj.Args.getD [] ++ [a]) }) ∧
    (∃ env : List (String × String),
      Application.AddEnv store p k v = some (p, store.write p { obj with Env := some env }) ∧
      mapLookup env k = some v ∧
      (∀ other : String, other ≠ k → mapLookup env other = mapLookup (obj.Env.getD []) other) ∧
      ((obj.Env = none ∨ obj.Env = some []) → env = [(k, v)])) ∧
    ((obj.Dependencies = none ∨ obj.Dependencies = some []) →
      Application.DependsOn store p n
        = some (p, store.write p { obj with Dependencies := some [n] })) ∧
    ((obj.Args = none ∨ obj.Args = some []) →
      Application.Arg store p a = some (p, store.write p { obj with Args := some [a] })) := by
  have hdep : Application.DependsOn store p n
      = some (p, store.write p
          { obj with Dependencies := some (obj.Dependencies.getD [] ++ [n]) }) := by
    unfold Application.DependsOn
    rw [h]
    cases hd : obj.Dependencies <;> simp [hd]
  have harg : Application.Arg store p a
      = some (p, store.write p { obj with Args := some (obj.Args.getD [] ++ [a]) }) := by
    unfold Application.Arg
    rw [h]
    cases hd : obj.Args <;> simp [hd]
  refine ⟨hdep, harg, ⟨mapAssign (obj.Env.getD []) k v, ?_, ?_, ?_, ?_⟩, ?_, ?_⟩
  · unfold Application.AddEnv
    rw [h]
    cases hd : obj.Env <;> simp [hd]
  · exact mapLookup_mapAssign_self _ _ _
  · intro other hother
    exact mapLookup_mapAssign_other _ _ _ _ hother
  · rintro (hd | hd) <;> simp [hd, mapAssign]
  · intro hd
    rw [hdep]
    rcases hd with hd | hd <;> simp [hd]
  · intro hd
    rw [harg]
    rcases hd with hd | hd <;> simp [hd]

/-- On the zero application and on one whose fields are allocated and empty the
three builders give `[db]`, `[-v]` and `K = V`; on an application holding a
dependency, an argument and the variables `A`, `B` they add at the end, and
`AddEnv("A", "9")` replaces the value of `A` and keeps that of `B`. -/
theorem collection_builders_allocate_witness :
    (Store.single 1 ({} : Application)).read 1 = some {} ∧
    (builtObject (Application.DependsOn (Store.single 1 {}) 1 "db")).map
        (fun o => o.Dependencies) = some (some ["db"]) ∧
    (builtObject (Application.DependsOn
        (Store.single 1 { Dependencies := some [], Args := some [], Env := some [] }) 1 "db")).map
        (fun o => o.Dependencies) = some (some ["db"]) ∧
    (builtObject (Application.Arg (Store.single 1 {}) 1 "-v")).map
        (fun o => o.Args) = some (some ["-v"]) ∧
    (builtObject (Application.AddEnv (Store.single 1 {}) 1 "K" "V")).map
        (fun o => o.Env) = some (some [("K", "V")]) ∧
    (builtObject (Application.DependsOn (Store.single 1 configuredApp) 1 "cache")).map
        (fun o => o.Dependencies) = some (some ["db", "cache"]) ∧
    (builtObject (Application.Arg (Store.single 1 configuredApp) 1 "-q")).map
        (fun o => o.Args) = some (some ["-v", "-q"]) ∧
    (builtObject (Application.AddEnv (Store.single 1 configuredApp) 1 "A" "9")).map
        (fun o => ((o.Env.getD []).lookup "A", (o.Env.getD []).lookup "B"))
      = some (some "9", some "2") := by
  refine ⟨rfl, ?_, ?_, ?_, ?_, ?_, ?_, ?_⟩
  · rw [(collection_builders_allocate (Store.single 1 {}) 1 {} rfl "db" "-v" "K" "V").1]
    rfl
  · rw [(collection_builders_allocate
      (Store.single 1 { Dependencies := some [], Args := some [], Env := some [] }) 1
      { Dependencies := some [], Args := some [], Env := some [] } rfl "db" "-v" "K" "V").1]
    rfl
  · rw [(collection_builders_allocate (Store.single 1 {}) 1 {} rfl "db" "-v" "K" "V").2.1]
    rfl
  · decide
  · rw [(collection_builders_allocate (Store.single 1 configuredApp) 1 configuredApp rfl
      "cache" "-q" "A" "9").1]
    rfl
  · rw [(collection_builders_allocate (Store.single 1 configuredApp) 1 configuredApp rfl
      "cache" "-q" "A" "9").2.1]
    rfl
  · decide


/-- C16: each scalar setter (`Name`, `CPU`, `Storage`, `Memory`, `Count`) called
on a receiver that designates the application `obj` returns the receiver itself
and leaves, at that address, `obj` with the targeted field (`ID`, `CPUs`,
`Disk`, `Mem`, `Instances`) equal to the argument and every other field as it
was; every other object of the store is untouched; and no argument is rejected:
the call succeeds for every value. -/
theorem scalar_setters_update_in_place (store : Store Application) (p : Nat)
    (obj : Application) (h : store.read p = some obj) (id : String) (cpu disk memory : Float32)
    (count : Int) :
    Application.Name store p id = some (p, store.write p { obj with ID := id }) ∧
    Application.CPU store p cpu = some (p, store.write p { obj with CPUs := cpu }) ∧
    Application.Storage store p disk = some (p, store.write p { obj with Disk := disk }) ∧
    Application.Memory store p memory = some (p, store.write p { obj with Mem := memory }) ∧
    Application.Count store p count = some (p, store.write p { obj with Instances := count }) ∧
    (∀ (v : Application) (q : Nat), q ≠ p → (store.write p v).read q = store.read q) ∧
    (∀ v : Application, (store.write p v).read p = some v) := by
  refine ⟨?_, ?_, ?_, ?_, ?_, ?_, ?_⟩
  · simp [Application.Name, h]
  · simp [Application.CPU, h]
  · simp [Application.Storage, h]
  · simp [Application.Memory, h]
  · simp [Application.Count, h]
  · intro v q hq
    exact store_read_write_other store p q v hq
  · intro v
    exact store_read_write_self store p v

/-- On the application `web` with its dependency, argument and variables,
`Count(-1)` and `Name("")` are accepted and stored, and the other fields stay. -/
theorem scalar_setters_update_in_place_witness :
    (Store.single 1 configuredApp).read 1 = some configuredApp ∧
    builtObject (Application.Count (Store.single 1 configuredApp) 1 (-1))
      = some { configuredApp with Instances := -1 } ∧
    builtObject (Application.Name (Store.single 1 configuredApp) 1 "")
      = some { configuredApp with ID := "" } ∧
    (Application.CPU (Store.single 1 configuredApp) 1 half).map (fun r => r.1) = some 1 := by
  have hall := scalar_setters_update_in_place (Store.single 1 configuredApp) 1 configuredApp rfl
    "" half half half (-1)
  refine ⟨rfl, ?_, ?_, ?_⟩
  · rw [hall.2.2.2.2.1]
    rfl
  · rw [hall.1]
    rfl
  · rw [hall.2.1]
    rfl

theorem run_keeps_id (store : Store Application) (p : Nat) (obj : Application)
    (h : store.read p = some obj) (call : BuilderCall) (hcall : call.isName = false) :
    ∃ obj2 : Application,
      call.run store p = some (p, store.write p obj2) ∧ obj2.ID = obj.ID := by
  cases call with
  | Name id => simp [BuilderCall.isName] at hcall
  | CPU cpu =>
    exact ⟨{ obj with CPUs := cpu }, by simp [BuilderCall.run, Application.CPU, h], rfl⟩
  | Storage disk =>
    exact ⟨{ obj with Disk := disk }, by simp [BuilderCall.run, Application.Storage, h], rfl⟩
  | Memory memory =>
    exact ⟨{ obj with Mem := memory }, by simp [BuilderCall.run, Application.Memory, h], rfl⟩
  | Count count =>
    exact ⟨{ obj with Instances := count },
      by simp [BuilderCall.run, Application.Count, h], rfl⟩
  | DependsOn name =>
    refine ⟨{ obj with Dependencies := some (obj.Dependencies.getD [] ++ [name]) }, ?_, rfl⟩
    simp only [BuilderCall.run, Application.DependsOn, h]
    cases hd : obj.Dependencies <;> simp [hd]
  | Arg argument =>
    refine ⟨{ obj with Args := some (obj.Args.getD [] ++ [argument]) }, ?_, rfl⟩
    simp only [BuilderCall.run, Application.Arg, h]
    cases hd : obj.Args <;> simp [hd]
  | AddEnv name value =>
    refine ⟨{ obj with Env := some (mapAssign (obj.Env.getD []) name value) }, ?_, rfl⟩
    simp only [BuilderCall.run, Application.AddEnv, h]
    cases hd : obj.Env <;> simp [hd]

theorem chain_keeps_id (calls : List BuilderCall) :
    ∀ (store : Store Application) (p : Nat) (obj : Application), store.read p = some obj →
      (∀ call ∈ calls, call.isName = false) →
      ∃ (store2 : Store Application) (obj2 : Application),
        BuilderCall.chain store p calls = some (p, store2) ∧ store2.read p = some obj2 ∧
        obj2.ID = obj.ID := by
  induction calls with
  | nil =>
    intro store p obj h _
    exact ⟨store, obj, rfl, h, rfl⟩
  | cons call calls ih =>
    intro store p obj h hcalls
    obtain ⟨obj1, hrun, hid1⟩ := run_keeps_id store p obj h call (hcalls call (by simp))
    obtain ⟨store2, obj2, hchain, hread, hid2⟩ :=
      ih (store.write p obj1) p obj1 (store_read_write_self store p obj1)
        (fun c hc => hcalls c (by simp [hc]))
    refine ⟨store2, obj2, ?_, hread, hid2.trans hid1⟩
    simp [BuilderCall.chain, hrun, hchain]

/-- C18, as stated, fails: on an application on which `Name("a")` has been
called, the subsequent call `Name("b")`, a call of the configuration surface,
leaves the ID `b`, not `a`. -/
theorem name_after_name_changes_id :
    (builtObject ((Application.Name (Store.single 1 {}) 1 "a").bind
        (fun r => BuilderCall.chain r.2 r.1 [.Name "b"]))).map (fun o => o.ID) = some "b" ∧
    (builtObject ((Application.Name (Store.single 1 {}) 1 "a").bind
        (fun r => BuilderCall.chain r.2 r.1 [.Name "b"]))).map (fun o => o.ID) ≠ some "a" := by
  constructor <;> decide

/-- C18, amended: for every application on which `Name(id)` has been called, and
for every subsequent sequence of calls of `CPU`, `Storage`, `Memory`, `Count`,
`DependsOn`, `Arg` and `AddEnv` (no call of `Name`), each made on the instance
the previous one returned, every call succeeds and returns the receiver, and the
ID of the application still equals `id`. -/
theorem id_kept_by_other_builders (store : Store Application) (p : Nat) (obj : Application)
    (h : store.read p = some obj) (id : String) (calls : List BuilderCall)
    (hcalls : ∀ call ∈ calls, call.isName = false) :
    ∃ (store1 store2 : Store Application) (obj2 : Application),
      Application.Name store p id = some (p, store1) ∧
      BuilderCall.chain store1 p calls = some (p, store2) ∧
      store2.read p = some obj2 ∧ obj2.ID = id := by
  obtain ⟨store2, obj2, hchain, hread, hid⟩ :=
    chain_keeps_id calls (store.write p { obj with ID := id }) p { obj with ID := id }
      (store_read_write_self store p _) hcalls
  exact ⟨store.write p { obj with ID := id }, store2, obj2,
    by simp [Application.Name, h], hchain, hread, hid⟩

/-- After `Name("web")` the seven other builders, called in a row, leave the ID
`web`. -/
theorem id_kept_by_other_builders_witness :
    (Store.single 1 ({} : Application)).read 1 = some {} ∧
    (∀ call ∈ [BuilderCall.CPU half, .Storage half, .Memory sixtyFour, .Count 3,
        .DependsOn "db", .Arg "-v", .AddEnv "K" "V"], call.isName = false) ∧
    ∃ (store1 store2 : Store Application) (obj2 : Application),
      Application.Name (Store.single 1 {}) 1 "web" = some (1, store1) ∧
      BuilderCall.chain store1 1
        [.CPU half, .Storage half, .Memory sixtyFour, .Count 3, .DependsOn "db", .Arg "-v",
          .AddEnv "K" "V"] = some (1, store2) ∧
      store2.read 1 = some obj2 ∧ obj2.ID = "web" :=
  ⟨rfl, by decide,
    id_kept_by_other_builders (Store.single 1 {}) 1 {} rfl "web"
      [.CPU half, .Storage half, .Memory sixtyFour, .Count 3, .DependsOn "db", .Arg "-v",
        .AddEnv "K" "V"] (by decide)⟩

/-! ## Container and Docker builders -/

/-- C19: the builders of `docker.go` change the object their receiver designates
and return the receiver: `Container(image)` sets `Image`, `Bridged()` sets
`Network` to `BRIDGE`, and for every Docker descriptor `obj`, whether its
`PortMappings` is nil or not, `ExposePort(c, h, s, proto)` returns the receiver
and leaves at that address `obj` with the one mapping `(c, h, s, proto)` added
after the earlier mappings, `Image` and `Network` as they were; `Expose(p)` is
`ExposePort(p, 0, 0, "tcp")` and `ExposeUDP(p)` is `ExposePort(p, 0, 0, "udp")`;
`Volume(host, container, mode)` returns its receiver and adds the one volume with
these paths and mode after the earlier ones; and `NewDockerContainer()` has the
type `DOCKER`, a Docker descriptor with image `""`, network `BRIDGE` and no port
mapping, and no volume. -/
theorem docker_builders_append (store : Store Docker) (d : Nat) (obj : Docker)
    (h : store.read d = some obj) (containers : Store Container) (c : Nat) (cobj : Container)
    (hc : containers.read c = some cobj) (container_port host_port service_port port : Int)
    (protocol host container mode image : String) :
    Docker.Container store d image = some (d, store.write d { obj with Image := image }) ∧
    Docker.Bridged store d = some (d, store.write d { obj with Network := "BRIDGE" }) ∧
    Docker.ExposePort store d container_port host_port service_port protocol
      = some (d, store.write d
          { obj with
            PortMappings := some (obj.PortMappings.getD [] ++
              [{ ContainerPort := container_port, HostPort := host_port,
                 ServicePort := service_port, Protocol := protocol }]) }) ∧
    Docker.Expose store d port = Docker.ExposePort store d port 0 0 "tcp" ∧
    Docker.ExposeUDP store d port = Docker.ExposePort store d port 0 0 "udp" ∧
    Container.Volume containers c host container mode
      = some (c, containers.write c
          { cobj with
            Volumes := some (cobj.Volumes.getD [] ++
              [{ HostPath := host, ContainerPath := container, Mode := mode }]) }) ∧
    NewDockerContainer.Type_ = "DOCKER" ∧
    NewDockerContainer.Docker
      = some { Image := "", Network := "BRIDGE", PortMappings := some [] } ∧
    NewDockerContainer.Volumes = some [] := by
  have hexpose : ∀ (cp hp sp : Int) (proto : String),
      Docker.ExposePort store d cp hp sp proto
        = some (d, store.write d
            { obj with
              PortMappings := some (obj.PortMappings.getD [] ++
                [{ ContainerPort := cp, HostPort := hp, ServicePort := sp,
                   Protocol := proto }]) }) := by
    intro cp hp sp proto
    unfold Docker.ExposePort
    rw [h]
    cases hd : obj.PortMappings <;> simp [hd]
  refine ⟨?_, ?_, hexpose _ _ _ _, ?_, ?_, ?_, rfl, rfl, rfl⟩
  · simp [Docker.Container, h]
  · simp [Docker.Bridged, h]
  · unfold Docker.Expose
    rw [hexpose]
  · unfold Docker.ExposeUDP
    rw [hexpose]
  · unfold Container.Volume
    rw [hc]
    cases hd : cobj.Volumes <;> simp [hd]

/-- On a descriptor with nil port mappings `ExposePort(8080, 31000, 0, "tcp")`
gives that one mapping; on one holding a mapping `ExposeUDP(53)` adds
`(53, 0, 0, "udp")` after it and keeps image and network; and `Volume` on the
container of `NewDockerContainer()` gives one volume. -/
theorem docker_builders_append_witness :
    (Store.single 1 ({} : Docker)).read 1 = some {} ∧
    builtObject (Docker.ExposePort (Store.single 1 {}) 1 8080 31000 0 "tcp")
      = some
          { PortMappings :=
              some [{ ContainerPort := 8080, HostPort := 31000, ServicePort := 0,
                      Protocol := "tcp" }] } ∧
    builtObject (Docker.ExposeUDP (Store.single 1 sampleDocker) 1 53)
      = some
          { Image := "nginx", Network := "HOST",
            PortMappings :=
              some [{ ContainerPort := 80, Protocol := "tcp" },
                    { ContainerPort := 53, HostPort := 0, ServicePort := 0,
                      Protocol := "udp" }] } ∧
    builtObject (Container.Volume (Store.single 2 NewDockerContainer) 2 "/data" "/var/data" "RW")
      = some
          { NewDockerContainer with
            Volumes :=
              some [{ HostPath := "/data", ContainerPath := "/var/data", Mode := "RW" }] } := by
  refine ⟨rfl, ?_, ?_, ?_⟩
  · rw [(docker_builders_append (Store.single 1 {}) 1 {} rfl (Store.single 2 NewDockerContainer) 2
      NewDockerContainer rfl 8080 31000 0 53 "tcp" "/data" "/var/data" "RW" "nginx").2.2.1]
    rfl
  · rw [(docker_builders_append (Store.single 1 sampleDocker) 1 sampleDocker rfl
      (Store.single 2 NewDockerContainer) 2 NewDockerContainer rfl 53 0 0 53 "udp" "/data"
      "/var/data" "RW" "nginx").2.2.2.2.1,
      (docker_builders_append (Store.single 1 sampleDocker) 1 sampleDocker rfl
      (Store.single 2 NewDockerContainer) 2 NewDockerContainer rfl 53 0 0 53 "udp" "/data"
      "/var/data" "RW" "nginx").2.2.1]
    rfl
  · rw [(docker_builders_append (Store.single 1 {}) 1 {} rfl (Store.single 2 NewDockerContainer) 2
      NewDockerContainer rfl 8080 31000 0 53 "tcp" "/data" "/var/data" "RW" "nginx").2.2.2.2.2.1]
    rfl

/-! ## Failures of the API client -/

/-- C17, as stated, fails: the PUT of `SetApplicationVersion("web", nil)` fails
with an error, and the operation returns nothing: it panics in its error branch,
where the argument `version.Version` of the log line is read through the nil
`version`. -/
theorem setApplicationVersion_nil_panics :
    (failingClient (.other "connection refused")).respond
        (failingClient (.other "connection refused")).log
        ⟨.PUT, (failingClient (.other "connection refused")).MARATHON_API_APPS ++ "web",
          .version none⟩ .deploymentID
      = .error (.other "connection refused") ∧
    (failingClient (.other "connection refused")).SetApplicationVersion "web" none = none ∧
    ((failingClient (.other "connection refused")).SetApplicationVersion "web" none).map Prod.fst
      ≠ some (.error (.other "connection refused")) := by
  refine ⟨rfl, rfl, ?_⟩
  intro h
  cases h

/-- C17, amended: a failure of the API client is returned as it is, with a nil or
false result, `SetApplicationVersion` being called with a version that is not
nil.  If the list request fails with `e`, then `Applications` and
`ListApplications` return `(nil, e)` and, for a non-empty name, `HasApplication`
and `ApplicationOK` return `(false, e)`; if the list request succeeds and lists
`name` but the fetch of the document fails with `e`, `ApplicationOK` returns
`(false, e)`; if its request fails with `e`, each of `Application`,
`ApplicationVersions`, `SetApplicationVersion` (on a version that is not nil) and
`RestartApplication` returns `(nil, e)` and `HasApplicationVersion` returns
`(false, e)`. -/
theorem client_failures_propagate (client : Client) (name version : String)
    (target : Marathon.ApplicationVersion) (force : Bool) (e : Error) :
    (client.respond client.log client.listRequest .applications = .error e →
      (client.Applications).1 = .error e ∧
      (client.ListApplications).1 = .error e ∧
      (name ≠ "" → (client.HasApplication name).1 = (false, some e)) ∧
      (name ≠ "" → (client.ApplicationOK name).map Prod.fst = some (false, some e))) ∧
    (∀ apps : Marathon.Applications, name ≠ "" →
      client.respond client.log client.listRequest .applications = .ok apps →
      name ∈ apps.ids →
      client.respond (client.log ++ [client.listRequest]) (client.applicationRequest name)
        .applicationWrap = .error e →
      (client.ApplicationOK name).map Prod.fst = some (false, some e)) ∧
    (client.respond client.log (client.applicationRequest name) .applicationWrap = .error e →
      (client.Application name).1 = .error e) ∧
    (client.respond client.log
        ⟨.GET, client.MARATHON_API_APPS ++ name ++ "/versions", .query ""⟩ .applicationVersions
        = .error e →
      (client.ApplicationVersions name).1 = .error e ∧
      (client.HasApplicationVersion name version).1 = (false, some e)) ∧
    (client.respond client.log ⟨.PUT, client.MARATHON_API_APPS ++ name, .version (some target)⟩
        .deploymentID = .error e →
      (client.SetApplicationVersion name (some target)).map Prod.fst = some (.error e)) ∧
    (client.respond client.log
        ⟨.GET, client.MARATHON_API_APPS ++ name ++ "/restart", .query ""⟩ .deploymentID
        = .error e →
      (client.RestartApplication name force).1 = .error e) := by
  refine ⟨?_, ?_, ?_, ?_, ?_, ?_⟩
  · intro hfail
    have hlist := listApplications_of_error client e hfail
    have hhas : name ≠ "" → client.HasApplication name
        = ((false, some e), client.after [client.listRequest]) := by
      intro hname
      unfold Client.HasApplication
      rw [hlist]
      simp [hname]
    refine ⟨?_, ?_, ?_, ?_⟩
    · rw [applications_eq, hfail]
    · rw [hlist]
    · intro hname
      rw [hhas hname]
    · intro hname
      unfold Client.ApplicationOK
      rw [hhas hname]
      rfl
  · intro apps hname hlist hmem hfetch
    unfold Client.ApplicationOK
    rw [hasApplication_of_ok client name apps hname hlist]
    simp only [hmem, decide_True, Bool.not_true, Bool.false_eq_true, if_false]
    rw [application_eq]
    have hfetch2 : (client.after [client.listRequest]).respond
        (client.after [client.listRequest]).log
        ((client.after [client.listRequest]).applicationRequest name) .applicationWrap
        = .error e := hfetch
    rw [hfetch2]
    rfl
  · intro hfail
    rw [application_eq, hfail]
    rfl
  · intro hfail
    have hver : client.ApplicationVersions name
        = (.error e,
            client.after [⟨.GET, client.MARATHON_API_APPS ++ name ++ "/versions", .query ""⟩]) := by
      unfold Client.ApplicationVersions Client.ApiGet Client.call
      simp only [hfail]
      rfl
    refine ⟨by rw [hver], ?_⟩
    unfold Client.HasApplicationVersion
    rw [hver]
  · intro hfail
    have hfail2 : client.respond client.log
        ⟨.PUT, client.MARATHON_API_APPS ++ name, .version (some target)⟩ .deploymentID
        = .error e := hfail
    unfold Client.SetApplicationVersion Client.Debug Client.ApiPut Client.call
    simp only [hfail2]
    rfl
  · intro hfail
    unfold Client.RestartApplication Client.Debug Client.ApiGet Client.call
    simp only [hfail]

/-- Against a remote system failing every request with one error, each of the
operations returns that error; and against one that lists `web` and fails every
other request, `ApplicationOK("web")` returns the error of the fetch. -/
theorem client_failures_propagate_witness :
    ((failingClient (.other "connection refused")).Applications).1
      = .error (.other "connection refused") ∧
    ((failingClient (.other "connection refused")).ListApplications).1
      = .error (.other "connection refused") ∧
    ((failingClient (.other "connection refused")).HasApplication "web").1
      = (false, some (.other "connection refused")) ∧
    ((failingClient (.other "connection refused")).ApplicationOK "web").map Prod.fst
      = some (false, some (.other "connection refused")) ∧
    ((failingClient (.other "connection refused")).Application "web").1
      = .error (.other "connection refused") ∧
    ((failingClient (.other "connection refused")).HasApplicationVersion "web" "v1").1
      = (false, some (.other "connection refused")) ∧
    ((failingClient (.other "connection refused")).SetApplicationVersion "web"
        (some ⟨"v1"⟩)).map Prod.fst
      = some (.error (.other "connection refused")) ∧
    ((failingClient (.other "connection refused")).RestartApplication "web" true).1
      = .error (.other "connection refused") ∧
    (listOnlyClient (.other "timeout")).respond (listOnlyClient (.other "timeout")).log
        (listOnlyClient (.other "timeout")).listRequest .applications
      = .ok ⟨some [{ ID := "web" }]⟩ ∧
    (listOnlyClient (.other "timeout")).respond
        ((listOnlyClient (.other "timeout")).log ++ [(listOnlyClient (.other "timeout")).listRequest])
        ((listOnlyClient (.other "timeout")).applicationRequest "web") .applicationWrap
      = .error (.other "timeout") ∧
    ((listOnlyClient (.other "timeout")).ApplicationOK "web").map Prod.fst
      = some (false, some (.other "timeout")) := by
  have hall := client_failures_propagate (failingClient (.other "connection refused")) "web" "v1"
    ⟨"v1"⟩ true (.other "connection refused")
  have hlist := hall.1 rfl
  have hfetch := (client_failures_propagate (listOnlyClient (.other "timeout")) "web" "v1"
    ⟨"v1"⟩ true (.other "timeout")).2.1 ⟨some [{ ID := "web" }]⟩ (by decide) rfl (by decide) rfl
  exact ⟨hlist.1, hlist.2.1, hlist.2.2.1 (by decide), hlist.2.2.2 (by decide),
    hall.2.2.1 rfl, (hall.2.2.2.1 rfl).2, hall.2.2.2.2.1 rfl, hall.2.2.2.2.2 rfl,
    rfl, rfl, hfetch⟩

/-- C20: `ApplicationOK("")` returns `(false, ErrInvalidArgument)`, which is not
`ErrDoesNotExist`, and issues no request: the client, its request log included,
is left as it was, because `HasApplication("")` returns before any call of the
client and `ApplicationOK` passes its error on. -/
theorem applicationOK_empty_name (client : Client) :
    client.ApplicationOK "" = some ((false, some .ErrInvalidArgument), client) ∧
    (client.ApplicationOK "").map (fun r => r.1.2) ≠ some (some .ErrDoesNotExist) ∧
    (client.ApplicationOK "").map (fun r => r.2.log) = some client.log ∧
    client.HasApplication "" = ((false, some .ErrInvalidArgument), client) := by
  have hhas : client.HasApplication "" = ((false, some .ErrInvalidArgument), client) := by
    simp [Client.HasApplication]
  have hok : client.ApplicationOK ""
      = some ((false, some .ErrInvalidArgument), client) := by
    unfold Client.ApplicationOK
    rw [hhas]
  refine ⟨hok, ?_, ?_, hhas⟩
  · rw [hok]
    simp
  · rw [hok]
    rfl

end Marathon
